import Mathlib

/-!
Verification of the glox tree-walking Lox interpreter (hosome17/glox).

This development is a shallow embedding, in Lean 4, of the Go sources:
`scanner.go`, `parser.go`, `interpreter.go`, `environment.go`, `error.go`,
`lox_function.go`, `lox_class.go`, `glox.go`.  Go's mutable interpreter
state (environment chain, instance fields, the diagnostics sink) is made
explicit as a state record threaded through every function; Go's
`error`-channel control flow (`*runtimeError`, `*breakError`,
`*returnError`) is a `Signal` sum; a Go panic (nil dereference, failed
type assertion) is the `crash` outcome; possible non-termination of the
evaluator and of the recursive-descent parser is handled with fuel, whose
exhaustion is the `spin` outcome.

Lox numbers (Go `float64`) are modelled as exact rationals (`LoxNum`,
an integer-pair fraction type; value equality and comparison are by
cross-multiplication).  Every program examined by a theorem in this file
stays within values on which `float64` arithmetic is exact, so no claim
below depends on rounding.

Go map reads that default to the zero value are modelled with
association-list lookups defaulted with `Option.getD`; Go pointer
identity of AST nodes (the key of the resolver side-table
`Interpreter.locals`) is modelled by a unique numeric `nid` stamped on
`Variable`, `Assign` and `This` nodes by the parser.
-/

namespace Glox

/-- Token kinds.  Modelled from the spec: §6.1 "Token kinds (closed set)";
the Go `TokenType` enumeration itself is not part of the source snapshot,
only its constants are referenced by `scanner.go` and `parser.go`. -/
inductive TokenType where
  | LEFT_PAREN | RIGHT_PAREN | LEFT_BRACE | RIGHT_BRACE
  | COMMA | DOT | MINUS | PLUS | SEMICOLON | SLASH | STAR
  | QUESTION_MARK | COLON
  | BANG | BANG_EQUAL | EQUAL | EQUAL_EQUAL
  | GREATER | GREATER_EQUAL | LESS | LESS_EQUAL
  | IDENTIFIER | STRING | NUMBER
  | AND | BREAK | CLASS | ELSE | FALSE | FUN | FOR | IF | NIL | OR
  | PRINT | RETURN | SUPER | THIS | TRUE | VAR | WHILE
  | EOF
deriving DecidableEq, Repr, Inhabited

/-- Exact rationals standing in for Go's `float64`: an integer
numerator over a positive integer denominator, not necessarily reduced.
All arithmetic, equality and ordering below is exact fraction
arithmetic; every number occurring in a theorem of this file is exactly
representable in `float64`, where `float64` arithmetic coincides with
exact arithmetic. -/
structure LoxNum where
  num : Int
  den : Int := 1
deriving DecidableEq, Repr, Inhabited

/-- Value equality of fractions (`==` on `float64`). -/
def LoxNum.qEq (a b : LoxNum) : Bool := a.num * b.den = b.num * a.den

/-- `<` on fractions (denominators are positive by construction). -/
def LoxNum.qLt (a b : LoxNum) : Bool := a.num * b.den < b.num * a.den

/-- `≤` on fractions. -/
def LoxNum.qLe (a b : LoxNum) : Bool := a.num * b.den ≤ b.num * a.den

/-- Addition. -/
def LoxNum.qAdd (a b : LoxNum) : LoxNum :=
  ⟨a.num * b.den + b.num * a.den, a.den * b.den⟩

/-- Subtraction. -/
def LoxNum.qSub (a b : LoxNum) : LoxNum :=
  ⟨a.num * b.den - b.num * a.den, a.den * b.den⟩

/-- Multiplication. -/
def LoxNum.qMul (a b : LoxNum) : LoxNum := ⟨a.num * b.num, a.den * b.den⟩

/-- Division (callers check the divisor for zero first, as the Go code
does); the sign is kept on the numerator. -/
def LoxNum.qDiv (a b : LoxNum) : LoxNum :=
  let n := a.num * b.den
  let d := a.den * b.num
  if d < 0 then ⟨-n, -d⟩ else ⟨n, d⟩

/-- Negation (`-` unary). -/
def LoxNum.qNeg (a : LoxNum) : LoxNum := ⟨-a.num, a.den⟩

/-- Comparison with `0` (`right.(float64) == 0`). -/
def LoxNum.qIsZero (a : LoxNum) : Bool := a.num = 0

/-- A whole number as a fraction. -/
def LoxNum.ofNat (n : Nat) : LoxNum := ⟨n, 1⟩

/-- The values a token's `Literal interface{}` field can hold
(`nil`, `bool`, `float64`, `string`); also the payload of a `Literal`
AST node, which `parser.go` only ever fills from a token literal or with
`true` / `false` / `nil`. -/
inductive LitVal where
  | vnil
  | vbool (b : Bool)
  | vnum (q : LoxNum)
  | vstr (s : String)
deriving DecidableEq, Repr, Inhabited

/-- `token.go`: `Token{Type, Lexeme, Literal, Line}`. -/
structure Token where
  type : TokenType
  lexeme : String := ""
  literal : LitVal := .vnil
  line : Nat := 1
deriving DecidableEq, Repr, Inhabited

mutual

/-- `expr.go`: the expression sum type.  Constructor payloads follow the
Go structs field by field ( `FunctionExpr.Paramters` keeps the source's
spelling).  `nid` on `Variable`, `Assign` and `This` models Go pointer
identity of the node, the key of `Interpreter.locals`. -/
inductive Expr where
  | Literal (value : LitVal)
  | Grouping (expression : Expr)
  | Unary (operator : Token) (right : Expr)
  | Binary (left : Expr) (operator : Token) (right : Expr)
  | Logical (left : Expr) (operator : Token) (right : Expr)
  | Conditional (cond : Expr) (consequent : Expr) (alternate : Expr)
  | Variable (name : Token) (nid : Nat)
  | Assign (name : Token) (value : Expr) (nid : Nat)
  | Call (callee : Expr) (paren : Token) (arguments : List Expr)
  | FunctionExpr (fe : FunctionExprData)
  | Get (object : Expr) (name : Token)
  | Set (object : Expr) (name : Token) (value : Expr)
  | This (keyword : Token) (nid : Nat)

/-- Payload of `FunctionExpr` (`Paramters []*Token`, `Body []Stmt`),
shared between the AST node and `LoxFunction.Declaration`. -/
inductive FunctionExprData where
  | mk (paramters : List Token) (body : List Stmt)

/-- `stmt.go` statement sum type, with the `Class`, `Return` and
`Function`-carrying-`FunctionExpr` variants as constructed by
`parser.go` and consumed by `interpreter.go` (the `stmt.go` file in the
snapshot is an earlier revision that predates them).  A class's method
list entry is the (name, function-expression) pair of a `Function`
declaration. -/
inductive Stmt where
  | Expression (expression : Expr)
  | Print (expression : Expr)
  | Var (name : Token) (initializer : Option Expr)
  | Block (statements : List Stmt)
  | If (condition : Expr) (thenBranch : Stmt) (elseBranch : Option Stmt)
  | While (condition : Expr) (body : Stmt)
  | Break
  | Function (name : Token) (function : FunctionExprData)
  | Return (keyword : Token) (value : Option Expr)
  | Class (name : Token) (methods : List (Token × FunctionExprData))

end

/-- Parameter list of a `FunctionExprData`. -/
def FunctionExprData.paramters : FunctionExprData → List Token
  | .mk ps _ => ps

/-- Body of a `FunctionExprData`. -/
def FunctionExprData.body : FunctionExprData → List Stmt
  | .mk _ b => b

/-! ## Diagnostics sink (`error.go`) -/

/-- `error.go`: the `ErrorPrinter` flags plus, made explicit, the two
output channels (`report` via `log.Printf`, `RuntimeError` via
`fmt.Printf`) and a `panicked` bit recording that a Go panic escaped a
sink method (the failed `err.(*runtimeError)` type assertion in
`RuntimeError`). -/
structure ErrorPrinter where
  hadError : Bool := false
  hadRuntimeError : Bool := false
  log : List String := []
  runtimeLog : List String := []
  panicked : Bool := false
deriving Repr, DecidableEq, Inhabited

/-- `ErrorPrinter.report`: formats the line and sets `hadError`. -/
def ErrorPrinter.report (ep : ErrorPrinter) (line : Nat) (wher : String)
    (message : String) : ErrorPrinter :=
  { ep with
    log := ep.log ++ ["[line " ++ toString line ++ "] Error " ++ wher ++ ": " ++ message]
    hadError := true }

/-- `ErrorPrinter.Error(line, message)`. -/
def ErrorPrinter.Error (ep : ErrorPrinter) (line : Nat) (message : String) :
    ErrorPrinter :=
  ep.report line "" message

/-- `ErrorPrinter.TokenError(token, message)`. -/
def ErrorPrinter.TokenError (ep : ErrorPrinter) (token : Token)
    (message : String) : ErrorPrinter :=
  if token.type = TokenType.EOF then
    ep.report token.line " at end " message
  else
    ep.report token.line (" at '" ++ token.lexeme ++ "'") message

/-! ## Scanner (`scanner.go`)

The Go scanner walks the source string byte by byte; sources here are
ASCII, so the byte walk is modelled as a `List Char` walk.  Each
iteration of `ScanTokens` advances `current` by at least one, so a fuel
of `source.length + 1` never runs out; the fuel-zero branch is dead for
that bound. -/

/-- The scanner's keyword table `keywords`. -/
def keywords : String → Option TokenType
  | "and" => some .AND
  | "break" => some .BREAK
  | "class" => some .CLASS
  | "else" => some .ELSE
  | "false" => some .FALSE
  | "for" => some .FOR
  | "fun" => some .FUN
  | "if" => some .IF
  | "nil" => some .NIL
  | "or" => some .OR
  | "print" => some .PRINT
  | "return" => some .RETURN
  | "super" => some .SUPER
  | "this" => some .THIS
  | "true" => some .TRUE
  | "var" => some .VAR
  | "while" => some .WHILE
  | _ => none

/-- Scanner state: `scanner.go`'s `Scanner` struct with the shared
diagnostics sink made explicit.  (`keywords` for `break` is present in
the parser's token set; the scanner revision in the snapshot predates
the `break` keyword but `parser.go` consumes a `BREAK` token, so the
table includes it.) -/
structure Scanner where
  source : List Char
  tokens : List Token := []
  start : Nat := 0
  current : Nat := 0
  line : Nat := 1
  ep : ErrorPrinter := {}
deriving Repr, Inhabited

namespace Scanner

/-- `isAtEnd`. -/
def isAtEnd (sc : Scanner) : Bool := sc.source.length ≤ sc.current

/-- `advance`: consume and return the current character. -/
def advance (sc : Scanner) : Char × Scanner :=
  (sc.source.getD sc.current (Char.ofNat 0), { sc with current := sc.current + 1 })

/-- `peek` (returns `'\000'` at end). -/
def peek (sc : Scanner) : Char := sc.source.getD sc.current (Char.ofNat 0)

/-- `peekNext`. -/
def peekNext (sc : Scanner) : Char := sc.source.getD (sc.current + 1) (Char.ofNat 0)

/-- The lexeme `source[start:current]`. -/
def text (sc : Scanner) : String :=
  String.mk ((sc.source.drop sc.start).take (sc.current - sc.start))

/-- `addTokenWithLiteral`. -/
def addTokenWithLiteral (sc : Scanner) (ty : TokenType) (literal : LitVal) :
    Scanner :=
  let lexeme := if ty = TokenType.EOF then "" else sc.text
  { sc with tokens := sc.tokens ++ [{ type := ty, lexeme := lexeme, literal := literal, line := sc.line }] }

/-- `addToken`. -/
def addToken (sc : Scanner) (ty : TokenType) : Scanner :=
  sc.addTokenWithLiteral ty .vnil

/-- `match`: conditional advance (named `matchChar` because `match` is a
Lean keyword). -/
def matchChar (sc : Scanner) (expected : Char) : Bool × Scanner :=
  if sc.peek ≠ expected then (false, sc)
  else (true, (sc.advance).2)

/-- `isDigit`. -/
def isDigit (c : Char) : Bool := decide ('0' ≤ c ∧ c ≤ '9')

/-- `isAlpha`. -/
def isAlpha (c : Char) : Bool :=
  decide (('a' ≤ c ∧ c ≤ 'z') ∨ ('A' ≤ c ∧ c ≤ 'Z') ∨ c = '_')

/-- `isAlphaNumeric`. -/
def isAlphaNumeric (c : Char) : Bool := isAlpha c || isDigit c

/-- The `for sc.peek() != '\n' && !sc.isAtEnd()` loop of a `//` comment. -/
def lineCommentLoop : Nat → Scanner → Scanner
  | 0, sc => sc
  | fuel + 1, sc =>
    if sc.peek ≠ '\n' ∧ ¬ sc.isAtEnd then lineCommentLoop fuel (sc.advance).2
    else sc

/-- `multilineComment`'s scan loop. -/
def multilineCommentLoop : Nat → Scanner → Scanner
  | 0, sc => sc
  | fuel + 1, sc =>
    if ¬ sc.isAtEnd then
      if sc.peek = '*' ∧ sc.peekNext = '/' then ((sc.advance).2.advance).2
      else
        let sc := if sc.peek = '\n' then { sc with line := sc.line + 1 } else sc
        multilineCommentLoop fuel (sc.advance).2
    else { sc with ep := sc.ep.Error sc.line "Multiline comment was not closed" }

/-- The body scan loop of `string()`. -/
def stringLoop : Nat → Scanner → Scanner
  | 0, sc => sc
  | fuel + 1, sc =>
    if sc.peek ≠ '"' ∧ ¬ sc.isAtEnd then
      let sc := if sc.peek = '\n' then { sc with line := sc.line + 1 } else sc
      stringLoop fuel (sc.advance).2
    else sc

/-- `string()`: scan a string literal (no escapes). -/
def stringLit (fuel : Nat) (sc : Scanner) : Scanner :=
  let sc := stringLoop fuel sc
  if sc.isAtEnd then { sc with ep := sc.ep.Error sc.line "Unterminated string." }
  else
    let sc := (sc.advance).2
    let value := String.mk (((sc.source.drop (sc.start + 1))).take (sc.current - 1 - (sc.start + 1)))
    sc.addTokenWithLiteral .STRING (.vstr value)

/-- A digit-consuming loop (`for isDigit(sc.peek())`). -/
def digitLoop : Nat → Scanner → Scanner
  | 0, sc => sc
  | fuel + 1, sc =>
    if isDigit sc.peek then digitLoop fuel (sc.advance).2 else sc

/-- Numeric value of the lexeme, as an exact rational.  Models
`strconv.ParseFloat`; exact for every literal a theorem below examines. -/
def numberValue (chars : List Char) : LoxNum :=
  let intPart := chars.takeWhile (· ≠ '.')
  let fracPart := (chars.dropWhile (· ≠ '.')).drop 1
  let digits : List Char → Nat := fun ds =>
    ds.foldl (fun acc c => acc * 10 + (c.toNat - '0'.toNat)) 0
  ⟨digits intPart * 10 ^ fracPart.length + digits fracPart, (10 : Nat) ^ fracPart.length⟩

/-- `number()`. -/
def number (fuel : Nat) (sc : Scanner) : Scanner :=
  let sc := digitLoop fuel sc
  let sc :=
    if sc.peek = '.' ∧ isDigit sc.peekNext then digitLoop fuel (sc.advance).2
    else sc
  sc.addTokenWithLiteral .NUMBER (.vnum (numberValue ((sc.source.drop sc.start).take (sc.current - sc.start))))

/-- The `for isAlphaNumeric(sc.peek())` loop of `identifier()`. -/
def identLoop : Nat → Scanner → Scanner
  | 0, sc => sc
  | fuel + 1, sc =>
    if isAlphaNumeric sc.peek then identLoop fuel (sc.advance).2 else sc

/-- `identifier()`. -/
def identifier (fuel : Nat) (sc : Scanner) : Scanner :=
  let sc := identLoop fuel sc
  let ty := (keywords sc.text).getD .IDENTIFIER
  sc.addToken ty

/-- `scanToken`. -/
def scanToken (fuel : Nat) (sc : Scanner) : Scanner :=
  let (c, sc) := sc.advance
  if c = '(' then sc.addToken .LEFT_PAREN
  else if c = ')' then sc.addToken .RIGHT_PAREN
  else if c = '{' then sc.addToken .LEFT_BRACE
  else if c = '}' then sc.addToken .RIGHT_BRACE
  else if c = ',' then sc.addToken .COMMA
  else if c = '.' then sc.addToken .DOT
  else if c = '-' then sc.addToken .MINUS
  else if c = '+' then sc.addToken .PLUS
  else if c = ';' then sc.addToken .SEMICOLON
  else if c = '*' then sc.addToken .STAR
  else if c = '/' then
    let (m, sc1) := sc.matchChar '/'
    if m then lineCommentLoop fuel sc1
    else
      let (m2, sc2) := sc.matchChar '*'
      if m2 then multilineCommentLoop fuel sc2
      else sc.addToken .SLASH
  else if c = '!' then
    let (m, sc1) := sc.matchChar '='
    if m then sc1.addToken .BANG_EQUAL else sc1.addToken .BANG
  else if c = '=' then
    let (m, sc1) := sc.matchChar '='
    if m then sc1.addToken .EQUAL_EQUAL else sc1.addToken .EQUAL
  else if c = '<' then
    let (m, sc1) := sc.matchChar '='
    if m then sc1.addToken .LESS_EQUAL else sc1.addToken .LESS
  else if c = '>' then
    let (m, sc1) := sc.matchChar '='
    if m then sc1.addToken .GREATER_EQUAL else sc1.addToken .GREATER
  else if c = ' ' ∨ c = '\r' ∨ c = '\t' then sc
  else if c = '\n' then { sc with line := sc.line + 1 }
  else if c = '"' then stringLit fuel sc
  else if isDigit c then number fuel sc
  else if isAlpha c then identifier fuel sc
  else { sc with ep := sc.ep.Error sc.line "Unexpected character." }

/-- `ScanTokens`'s main loop. -/
def scanLoop : Nat → Scanner → Scanner
  | 0, sc => sc
  | fuel + 1, sc =>
    if ¬ sc.isAtEnd then
      scanLoop fuel (scanToken (fuel + 1) { sc with start := sc.current })
    else sc

/-- `ScanTokens`: scan the whole source and append the final `EOF`
token.  (The fuel `source.length + 1` is always sufficient because every
`scanToken` advances `current`.) -/
def ScanTokens (sc : Scanner) : Scanner :=
  let sc := scanLoop (sc.source.length + 1) sc
  sc.addToken .EOF

end Scanner

/-- `NewScanner` + `ScanTokens` over a Lean `String` source. -/
def scanSource (source : String) (ep : ErrorPrinter) : List Token × ErrorPrinter :=
  let sc := Scanner.ScanTokens { source := source.data, ep := ep }
  (sc.tokens, sc.ep)

/-! ## Parser (`parser.go`)

The recursive-descent parser.  Parser state is the `Parser` struct of
`parser.go` plus the shared sink and the `nextId` counter that models Go
pointer identity for the nodes the resolver side-table would key on.
A parse function either produces a value (`ok`), or returns the Go
`(nil, err)` pair after reporting to the sink (`err`), or runs out of
fuel (`spin`, a model artifact: every theorem below supplies enough
fuel). -/

/-- Result channel of one parse function. -/
inductive PRes (α : Type) where
  | ok (a : α)
  | err
  | spin
deriving Repr

/-- `parser.go`'s `Parser` struct. -/
structure Parser where
  tokens : List Token
  current : Nat := 0
  ep : ErrorPrinter := {}
  loopDepth : Nat := 0
  allowExpression : Bool := false
  foundExpression : Bool := false
  disableCommaExpr : Bool := false
  nextId : Nat := 0
deriving Repr, Inhabited

namespace Parser

/-- `peek` (token lists produced by the scanner always end in `EOF`, so
the default is never used on them). -/
def peek (p : Parser) : Token := p.tokens.getD p.current { type := .EOF }

/-- `previous`. -/
def previous (p : Parser) : Token := p.tokens.getD (p.current - 1) { type := .EOF }

/-- `isAtEnd`. -/
def isAtEnd (p : Parser) : Bool := p.peek.type = TokenType.EOF

/-- `check`. -/
def check (p : Parser) (ty : TokenType) : Bool :=
  if p.isAtEnd then false else p.peek.type = ty

/-- `checkNext`. -/
def checkNext (p : Parser) (ty : TokenType) : Bool :=
  if p.isAtEnd then false
  else
    let nxt := p.tokens.getD (p.current + 1) { type := .EOF }
    if nxt.type = TokenType.EOF then false else nxt.type = ty

/-- `advance`: move on (unless at `EOF`) and return the consumed token. -/
def advance (p : Parser) : Token × Parser :=
  let p := if ¬ p.isAtEnd then { p with current := p.current + 1 } else p
  (p.previous, p)

/-- `match`: conditional advance over a list of kinds (named `matchT`
because `match` is a Lean keyword). -/
def matchT (p : Parser) (types : List TokenType) : Bool × Parser :=
  match types with
  | [] => (false, p)
  | ty :: rest => if p.check ty then (true, (p.advance).2) else p.matchT rest

/-- `error`: report via the sink and produce the `(nil, err)` outcome. -/
def errorAt (p : Parser) (token : Token) (message : String) : Parser :=
  { p with ep := p.ep.TokenError token message }

/-- `consume`. -/
def consume (p : Parser) (ty : TokenType) (message : String) :
    PRes Token × Parser :=
  if p.check ty then
    let (t, p) := p.advance
    (.ok t, p)
  else
    (.err, p.errorAt p.peek message)

/-- A fresh node identity (models the fresh Go heap pointer of a newly
allocated AST node). -/
def fresh (p : Parser) : Nat × Parser :=
  (p.nextId, { p with nextId := p.nextId + 1 })

/-- `synchronize`'s discard loop (after the initial `advance`). -/
def synchronizeLoop : Nat → Parser → Parser
  | 0, p => p
  | fuel + 1, p =>
    if ¬ p.isAtEnd then
      if p.previous.type = TokenType.SEMICOLON then p
      else
        match p.peek.type with
        | .CLASS | .FUN | .VAR | .FOR | .IF | .WHILE | .PRINT | .RETURN => p
        | _ => synchronizeLoop fuel (p.advance).2
    else p

/-- `synchronize`. -/
def synchronize (p : Parser) : Parser :=
  synchronizeLoop (p.tokens.length + 1) (p.advance).2

end Parser

/-- Sequencing for parse results: Go's `if err != nil { return nil, err }`. -/
def pbind {α β : Type} (x : PRes α × Parser) (k : α → Parser → PRes β × Parser) :
    PRes β × Parser :=
  match x with
  | (.ok a, p) => k a p
  | (.err, p) => (.err, p)
  | (.spin, p) => (.spin, p)

namespace Parser

/-- The grammar procedures of `parser.go` as one defunctionalized
request type: each constructor stands for one parse function of the Go
source (loop constructors carry the loop's accumulator).  A single
structurally recursive `pstep` keeps kernel reduction of concrete
parses tractable; the named wrappers below it are the Go functions. -/
inductive PRq where
  | declaration
  | classDeclaration
  | classMethodsLoop (acc : List (Token × FunctionExprData))
  | function (kind : String)
  | functionBody (kind : String)
  | paramsLoop (acc : List Token)
  | varDeclaration
  | statement
  | returnStatement
  | breakStatement
  | forStatement
  | whileStatement
  | ifStatement
  | block
  | blockLoop (acc : List Stmt)
  | expressionStatement
  | printStatement
  | expression
  | assignment
  | comma
  | commaLoop (e : Expr)
  | conditional
  | conditionalLoop (e : Expr)
  | orExpr
  | orLoop (e : Expr)
  | andExpr
  | andLoop (e : Expr)
  | equality
  | equalityLoop (e : Expr)
  | comparison
  | comparisonLoop (e : Expr)
  | term
  | termLoop (e : Expr)
  | factor
  | factorLoop (e : Expr)
  | unary
  | call
  | callLoop (e : Expr)
  | finishCall (c : Expr)
  | argsLoop (acc : List Expr)
  | primary

/-- Result type of each parse request. -/
@[reducible] def PRT : PRq → Type
  | .declaration => Stmt
  | .classDeclaration => Stmt
  | .classMethodsLoop _ => List (Token × FunctionExprData)
  | .function _ => Stmt
  | .functionBody _ => FunctionExprData
  | .paramsLoop _ => List Token
  | .varDeclaration => Stmt
  | .statement => Stmt
  | .returnStatement => Stmt
  | .breakStatement => Stmt
  | .forStatement => Stmt
  | .whileStatement => Stmt
  | .ifStatement => Stmt
  | .block => List Stmt
  | .blockLoop _ => List Stmt
  | .expressionStatement => Stmt
  | .printStatement => Stmt
  | .expression => Expr
  | .assignment => Expr
  | .comma => Expr
  | .commaLoop _ => Expr
  | .conditional => Expr
  | .conditionalLoop _ => Expr
  | .orExpr => Expr
  | .orLoop _ => Expr
  | .andExpr => Expr
  | .andLoop _ => Expr
  | .equality => Expr
  | .equalityLoop _ => Expr
  | .comparison => Expr
  | .comparisonLoop _ => Expr
  | .term => Expr
  | .termLoop _ => Expr
  | .factor => Expr
  | .factorLoop _ => Expr
  | .unary => Expr
  | .call => Expr
  | .callLoop _ => Expr
  | .finishCall _ => Expr
  | .argsLoop _ => List Expr
  | .primary => Expr

/-- One fueled step of the recursive-descent parser: the bodies are the
`parser.go` functions, case by case; every recursive call consumes one
unit of fuel. -/
def pstep : (fuel : Nat) → (q : PRq) → Parser → PRes (PRT q) × Parser
  | 0, _, p => (.spin, p)
  | fuel + 1, q, p =>
    match q with
    | .declaration =>
      let (isClass, p) := p.matchT [.CLASS]
      if isClass then
        pstep fuel .classDeclaration p
      else if p.check .FUN ∧ p.checkNext .IDENTIFIER then
        -- Go: `p.consume(FUN, "")` with both results discarded.
        let (_, p) := p.consume .FUN ""
        match pstep fuel (.function "function") p with
        | (.ok s, p) => (.ok s, p)
        | (.err, p) => (.err, p.synchronize)
        | (.spin, p) => (.spin, p)
      else
        let (isVar, p) := p.matchT [.VAR]
        if isVar then
          match pstep fuel .varDeclaration p with
          | (.ok s, p) => (.ok s, p)
          | (.err, p) => (.err, p.synchronize)
          | (.spin, p) => (.spin, p)
        else
          pstep fuel .statement p
    | .classDeclaration =>
      pbind (p.consume .IDENTIFIER "Expect class name.") fun name p =>
      pbind (p.consume .LEFT_BRACE "Expect '\x7b' before class body.") fun _ p =>
      pbind (pstep fuel (.classMethodsLoop []) p) fun methods p =>
      pbind (p.consume .RIGHT_BRACE "Expect '\x7d' after class body.") fun _ p =>
      (.ok (Stmt.Class name methods), p)
    | .classMethodsLoop acc =>
      if ¬ p.check .RIGHT_BRACE ∧ ¬ p.isAtEnd then
        match pstep fuel (.function "method") p with
        | (.ok (Stmt.Function nm fe), p) => pstep fuel (.classMethodsLoop (acc ++ [(nm, fe)])) p
        | (.ok _, p) => (.ok acc, p)  -- unreachable: `function` returns a Function stmt
        | (.err, p) => (.err, p)
        | (.spin, p) => (.spin, p)
      else (.ok acc, p)
    | .function kind =>
      pbind (p.consume .IDENTIFIER ("Expect " ++ kind ++ " name.")) fun name p =>
      pbind (pstep fuel (.functionBody kind) p) fun fn p =>
      (.ok (Stmt.Function name fn), p)
    | .functionBody kind =>
      pbind (p.consume .LEFT_PAREN ("Expect '(' after " ++ kind ++ " name.")) fun _ p =>
      let next : PRes (List Token) × Parser :=
        if ¬ p.check .RIGHT_PAREN then pstep fuel (.paramsLoop []) p else (.ok [], p)
      pbind next fun parameters p =>
      pbind (p.consume .RIGHT_PAREN "Expect ')' after parameters.") fun _ p =>
      pbind (p.consume .LEFT_BRACE ("Expect '\x7b' before " ++ kind ++ " body.")) fun _ p =>
      pbind (pstep fuel .block p) fun body p =>
      (.ok (FunctionExprData.mk parameters body), p)
    | .paramsLoop acc =>
      if acc.length ≥ 8 then
        (.err, p.errorAt p.peek "Can't have more than 8 parameters.")
      else
        pbind (p.consume .IDENTIFIER "Expect parameter name.") fun param p =>
        let acc := acc ++ [param]
        let (hasComma, p) := p.matchT [.COMMA]
        if hasComma then pstep fuel (.paramsLoop acc) p else (.ok acc, p)
    | .varDeclaration =>
      pbind (p.consume .IDENTIFIER "Expect variable name.") fun name p =>
      let step : PRes (Option Expr) × Parser :=
        let (hasEq, p) := p.matchT [.EQUAL]
        if hasEq then
          pbind (pstep fuel .expression p) fun e p => (.ok (some e), p)
        else (.ok none, p)
      pbind step fun initializer p =>
      pbind (p.consume .SEMICOLON "Expect ';' after variable declaration.") fun _ p =>
      (.ok (Stmt.Var name initializer), p)
    | .statement =>
      let (isPrint, p) := p.matchT [.PRINT]
      if isPrint then pstep fuel .printStatement p
      else
        let (isBrace, p) := p.matchT [.LEFT_BRACE]
        if isBrace then
          pbind (pstep fuel .block p) fun stmts p => (.ok (Stmt.Block stmts), p)
        else
          let (isIf, p) := p.matchT [.IF]
          if isIf then pstep fuel .ifStatement p
          else
            let (isWhile, p) := p.matchT [.WHILE]
            if isWhile then pstep fuel .whileStatement p
            else
              let (isFor, p) := p.matchT [.FOR]
              if isFor then pstep fuel .forStatement p
              else
                let (isBreak, p) := p.matchT [.BREAK]
                if isBreak then pstep fuel .breakStatement p
                else
                  let (isReturn, p) := p.matchT [.RETURN]
                  if isReturn then pstep fuel .returnStatement p
                  else pstep fuel .expressionStatement p
    | .returnStatement =>
      let keyword := p.previous
      let step : PRes (Option Expr) × Parser :=
        if ¬ p.check .SEMICOLON then
          pbind (pstep fuel .expression p) fun e p => (.ok (some e), p)
        else (.ok none, p)
      pbind step fun value p =>
      pbind (p.consume .SEMICOLON "Expect ';' after return value.") fun _ p =>
      (.ok (Stmt.Return keyword value), p)
    | .breakStatement =>
      if p.loopDepth = 0 then
        (.err, p.errorAt p.previous "Must be inside a loop to use 'break'.")
      else
        pbind (p.consume .SEMICOLON "Expect ';' after 'break'.") fun _ p =>
        (.ok Stmt.Break, p)
    | .forStatement =>
      pbind (p.consume .LEFT_PAREN "Expect '(' after 'for'.") fun _ p =>
      let initStep : PRes (Option Stmt) × Parser :=
        let (isSemi, p) := p.matchT [.SEMICOLON]
        if isSemi then (.ok none, p)
        else
          let (isVar, p) := p.matchT [.VAR]
          if isVar then
            pbind (pstep fuel .varDeclaration p) fun s p => (.ok (some s), p)
          else
            pbind (pstep fuel .expressionStatement p) fun s p => (.ok (some s), p)
      pbind initStep fun initializer p =>
      let condStep : PRes (Option Expr) × Parser :=
        if ¬ p.check .SEMICOLON then
          pbind (pstep fuel .expression p) fun e p => (.ok (some e), p)
        else (.ok none, p)
      pbind condStep fun condition p =>
      pbind (p.consume .SEMICOLON "Expect ';' after loop condition.") fun _ p =>
      let incrStep : PRes (Option Expr) × Parser :=
        if ¬ p.check .RIGHT_PAREN then
          pbind (pstep fuel .expression p) fun e p => (.ok (some e), p)
        else (.ok none, p)
      pbind incrStep fun increment p =>
      pbind (p.consume .RIGHT_PAREN "Expect ')' after for clauses.") fun _ p =>
      let p := { p with loopDepth := p.loopDepth + 1 }
      match pstep fuel .statement p with
      | (.err, p) => (.err, { p with loopDepth := p.loopDepth - 1 })
      | (.spin, p) => (.spin, p)
      | (.ok body, p) =>
        let body := match increment with
          | some inc => Stmt.Block [body, Stmt.Expression inc]
          | none => body
        let condition := condition.getD (Expr.Literal (LitVal.vbool true))
        let body := Stmt.While condition body
        let body := match initializer with
          | some ini => Stmt.Block [ini, body]
          | none => body
        (.ok body, { p with loopDepth := p.loopDepth - 1 })
    | .whileStatement =>
      pbind (p.consume .LEFT_PAREN "Expect '(' after 'while'.") fun _ p =>
      pbind (pstep fuel .expression p) fun condition p =>
      pbind (p.consume .RIGHT_PAREN "Expect ')' after condition.") fun _ p =>
      let p := { p with loopDepth := p.loopDepth + 1 }
      match pstep fuel .statement p with
      | (.err, p) => (.err, { p with loopDepth := p.loopDepth - 1 })
      | (.spin, p) => (.spin, p)
      | (.ok body, p) =>
        (.ok (Stmt.While condition body), { p with loopDepth := p.loopDepth - 1 })
    | .ifStatement =>
      pbind (p.consume .LEFT_PAREN "Expect '(' after 'if'.") fun _ p =>
      pbind (pstep fuel .expression p) fun condition p =>
      pbind (p.consume .RIGHT_PAREN "Expect ')' after if condition.") fun _ p =>
      pbind (pstep fuel .statement p) fun thenBranch p =>
      let (isElse, p) := p.matchT [.ELSE]
      if isElse then
        pbind (pstep fuel .statement p) fun elseBranch p =>
        (.ok (Stmt.If condition thenBranch (some elseBranch)), p)
      else
        (.ok (Stmt.If condition thenBranch none), p)
    | .block =>
      pstep fuel (.blockLoop []) p
    | .blockLoop acc =>
      if ¬ p.check .RIGHT_BRACE ∧ ¬ p.isAtEnd then
        pbind (pstep fuel .declaration p) fun stmt p =>
        pstep fuel (.blockLoop (acc ++ [stmt])) p
      else
        pbind (p.consume .RIGHT_BRACE "Expect '\x7d' after block.") fun _ p =>
        (.ok acc, p)
    | .expressionStatement =>
      pbind (pstep fuel .expression p) fun e p =>
      if p.allowExpression ∧ p.isAtEnd then
        (.ok (Stmt.Expression e), { p with foundExpression := true })
      else
        pbind (p.consume .SEMICOLON "Expect ';' after expression.") fun _ p =>
        (.ok (Stmt.Expression e), p)
    | .printStatement =>
      pbind (pstep fuel .expression p) fun val p =>
      pbind (p.consume .SEMICOLON "Expect ';' after value.") fun _ p =>
      (.ok (Stmt.Print val), p)
    | .expression =>
      pstep fuel .assignment p
    | .assignment =>
      pbind (pstep fuel .comma p) fun expr p =>
      let (isEq, p) := p.matchT [.EQUAL]
      if isEq then
        let equals := p.previous
        pbind (pstep fuel .assignment p) fun val p =>
        match expr with
        | Expr.Variable name _ =>
          let (nid, p) := p.fresh
          (.ok (Expr.Assign name val nid), p)
        | Expr.Get obj name =>
          (.ok (Expr.Set obj name val), p)
        | _ => (.err, p.errorAt equals "Invalid assignment target.")
      else (.ok expr, p)
    | .comma =>
      pbind (pstep fuel .conditional p) fun expr p =>
      if ¬ p.disableCommaExpr then pstep fuel (.commaLoop expr) p
      else (.ok expr, p)
    | .commaLoop expr =>
      let (hasComma, p) := p.matchT [.COMMA]
      if hasComma then
        let operator := p.previous
        pbind (pstep fuel .conditional p) fun right p =>
        pstep fuel (.commaLoop (Expr.Binary expr operator right)) p
      else (.ok expr, p)
    | .conditional =>
      pbind (pstep fuel .orExpr p) fun expr p =>
      pstep fuel (.conditionalLoop expr) p
    | .conditionalLoop expr =>
      let (isQ, p) := p.matchT [.QUESTION_MARK]
      if isQ then
        pbind (pstep fuel .expression p) fun thenBranch p =>
        pbind (p.consume .COLON "Expect ':' after then branch of conditional expression.") fun _ p =>
        pbind (pstep fuel .conditional p) fun elseBranch p =>
        pstep fuel (.conditionalLoop (Expr.Conditional expr thenBranch elseBranch)) p
      else (.ok expr, p)
    | .orExpr =>
      pbind (pstep fuel .andExpr p) fun expr p =>
      pstep fuel (.orLoop expr) p
    | .orLoop expr =>
      let (hasOr, p) := p.matchT [.OR]
      if hasOr then
        let operator := p.previous
        pbind (pstep fuel .andExpr p) fun right p =>
        pstep fuel (.orLoop (Expr.Logical expr operator right)) p
      else (.ok expr, p)
    | .andExpr =>
      pbind (pstep fuel .equality p) fun expr p =>
      pstep fuel (.andLoop expr) p
    | .andLoop expr =>
      let (hasAnd, p) := p.matchT [.AND]
      if hasAnd then
        let operator := p.previous
        pbind (pstep fuel .equality p) fun right p =>
        pstep fuel (.andLoop (Expr.Logical expr operator right)) p
      else (.ok expr, p)
    | .equality =>
      pbind (pstep fuel .comparison p) fun expr p =>
      pstep fuel (.equalityLoop expr) p
    | .equalityLoop expr =>
      let (m, p) := p.matchT [.BANG_EQUAL, .EQUAL_EQUAL]
      if m then
        let operator := p.previous
        pbind (pstep fuel .comparison p) fun right p =>
        pstep fuel (.equalityLoop (Expr.Binary expr operator right)) p
      else (.ok expr, p)
    | .comparison =>
      pbind (pstep fuel .term p) fun expr p =>
      pstep fuel (.comparisonLoop expr) p
    | .comparisonLoop expr =>
      let (m, p) := p.matchT [.GREATER, .GREATER_EQUAL, .LESS, .LESS_EQUAL]
      if m then
        let operator := p.previous
        pbind (pstep fuel .term p) fun right p =>
        pstep fuel (.comparisonLoop (Expr.Binary expr operator right)) p
      else (.ok expr, p)
    | .term =>
      pbind (pstep fuel .factor p) fun expr p =>
      pstep fuel (.termLoop expr) p
    | .termLoop expr =>
      let (m, p) := p.matchT [.MINUS, .PLUS]
      if m then
        let operator := p.previous
        pbind (pstep fuel .factor p) fun right p =>
        pstep fuel (.termLoop (Expr.Binary expr operator right)) p
      else (.ok expr, p)
    | .factor =>
      pbind (pstep fuel .unary p) fun expr p =>
      pstep fuel (.factorLoop expr) p
    | .factorLoop expr =>
      let (m, p) := p.matchT [.SLASH, .STAR]
      if m then
        let operator := p.previous
        pbind (pstep fuel .unary p) fun right p =>
        pstep fuel (.factorLoop (Expr.Binary expr operator right)) p
      else (.ok expr, p)
    | .unary =>
      let (m, p) := p.matchT [.BANG, .MINUS]
      if m then
        let operator := p.previous
        pbind (pstep fuel .unary p) fun right p =>
        (.ok (Expr.Unary operator right), p)
      else pstep fuel .call p
    | .call =>
      pbind (pstep fuel .primary p) fun expr p =>
      pstep fuel (.callLoop expr) p
    | .callLoop expr =>
      let (isParen, p) := p.matchT [.LEFT_PAREN]
      if isParen then
        pbind (pstep fuel (.finishCall expr) p) fun expr p =>
        pstep fuel (.callLoop expr) p
      else
        let (isDot, p) := p.matchT [.DOT]
        if isDot then
          pbind (p.consume .IDENTIFIER "Expect property name after '.'.") fun name p =>
          pstep fuel (.callLoop (Expr.Get expr name)) p
        else (.ok expr, p)
    | .finishCall callee =>
      let p := { p with disableCommaExpr := true }
      let step : PRes (List Expr) × Parser :=
        if ¬ p.check .RIGHT_PAREN then pstep fuel (.argsLoop []) p else (.ok [], p)
      pbind step fun arguments p =>
      pbind (p.consume .RIGHT_PAREN "Expect ')' after arguments.") fun paren p =>
      let p := { p with disableCommaExpr := false }
      (.ok (Expr.Call callee paren arguments), p)
    | .argsLoop acc =>
      if acc.length ≥ 255 then
        (.err, p.errorAt p.peek "Can't have more than 255 arguments.")
      else
        pbind (pstep fuel .expression p) fun arg p =>
        let acc := acc ++ [arg]
        let (hasComma, p) := p.matchT [.COMMA]
        if hasComma then pstep fuel (.argsLoop acc) p else (.ok acc, p)
    | .primary =>
      let (mFalse, p) := p.matchT [.FALSE]
      if mFalse then (.ok (Expr.Literal (LitVal.vbool false)), p)
      else
        let (mTrue, p) := p.matchT [.TRUE]
        if mTrue then (.ok (Expr.Literal (LitVal.vbool true)), p)
        else
          let (isNil, p) := p.matchT [.NIL]
          if isNil then (.ok (Expr.Literal LitVal.vnil), p)
          else
            let (isLit, p) := p.matchT [.NUMBER, .STRING]
            if isLit then (.ok (Expr.Literal p.previous.literal), p)
            else
              let (isIdent, p) := p.matchT [.IDENTIFIER]
              if isIdent then
                let ident := p.previous
                let (nid, p) := p.fresh
                (.ok (Expr.Variable ident nid), p)
              else
                let (isParen, p) := p.matchT [.LEFT_PAREN]
                if isParen then
                  pbind (pstep fuel .expression p) fun expr p =>
                  pbind (p.consume .RIGHT_PAREN "Expect ')' after expression.") fun _ p =>
                  (.ok (Expr.Grouping expr), p)
                else
                  let (isFun, p) := p.matchT [.FUN]
                  if isFun then
                    pbind (pstep fuel (.functionBody "function") p) fun fn p =>
                    (.ok (Expr.FunctionExpr fn), p)
                  else
                    let (isThis, p) := p.matchT [.THIS]
                    if isThis then
                      let kw := p.previous
                      let (nid, p) := p.fresh
                      (.ok (Expr.This kw nid), p)
                    else (.err, p.errorAt p.peek "Expect expression.")

/-- `declaration`. -/
def declaration (fuel : Nat) (p : Parser) : PRes (Stmt) × Parser :=
  pstep fuel .declaration p

/-- `classDeclaration`. -/
def classDeclaration (fuel : Nat) (p : Parser) : PRes (Stmt) × Parser :=
  pstep fuel .classDeclaration p

/-- The `for !p.check(RIGHT_BRACE) && !p.isAtEnd()` method loop of
`classDeclaration`. -/
def classMethodsLoop (fuel : Nat) (acc : List (Token × FunctionExprData)) (p : Parser) : PRes (List (Token × FunctionExprData)) × Parser :=
  pstep fuel (.classMethodsLoop acc) p

/-- `function`. -/
def function (fuel : Nat) (kind : String) (p : Parser) : PRes (Stmt) × Parser :=
  pstep fuel (.function kind) p

/-- `functionBody` (returns the `FunctionExpr` payload; the Go version
returns it behind the `Expr` interface and `function` downcasts). -/
def functionBody (fuel : Nat) (kind : String) (p : Parser) : PRes (FunctionExprData) × Parser :=
  pstep fuel (.functionBody kind) p

/-- The parameter loop of `functionBody`. -/
def paramsLoop (fuel : Nat) (acc : List Token) (p : Parser) : PRes (List Token) × Parser :=
  pstep fuel (.paramsLoop acc) p

/-- `varDeclaration`. -/
def varDeclaration (fuel : Nat) (p : Parser) : PRes (Stmt) × Parser :=
  pstep fuel .varDeclaration p

/-- `statement`. -/
def statement (fuel : Nat) (p : Parser) : PRes (Stmt) × Parser :=
  pstep fuel .statement p

/-- `returnStatement`. -/
def returnStatement (fuel : Nat) (p : Parser) : PRes (Stmt) × Parser :=
  pstep fuel .returnStatement p

/-- `breakStatement`: rejected when `loopDepth == 0`. -/
def breakStatement (fuel : Nat) (p : Parser) : PRes (Stmt) × Parser :=
  pstep fuel .breakStatement p

/-- `forStatement`: desugars to `Block(init?, While(cond ?? true,
Block(body, incr?)))`. -/
def forStatement (fuel : Nat) (p : Parser) : PRes (Stmt) × Parser :=
  pstep fuel .forStatement p

/-- `whileStatement`. -/
def whileStatement (fuel : Nat) (p : Parser) : PRes (Stmt) × Parser :=
  pstep fuel .whileStatement p

/-- `ifStatement`. -/
def ifStatement (fuel : Nat) (p : Parser) : PRes (Stmt) × Parser :=
  pstep fuel .ifStatement p

/-- `block` (the `"{"` is already consumed by the caller). -/
def block (fuel : Nat) (p : Parser) : PRes (List Stmt) × Parser :=
  pstep fuel .block p

/-- The declaration loop of `block`. -/
def blockLoop (fuel : Nat) (acc : List Stmt) (p : Parser) : PRes (List Stmt) × Parser :=
  pstep fuel (.blockLoop acc) p

/-- `expressionStatement` (its REPL branch included). -/
def expressionStatement (fuel : Nat) (p : Parser) : PRes (Stmt) × Parser :=
  pstep fuel .expressionStatement p

/-- `printStatement`. -/
def printStatement (fuel : Nat) (p : Parser) : PRes (Stmt) × Parser :=
  pstep fuel .printStatement p

/-- `expression`. -/
def expression (fuel : Nat) (p : Parser) : PRes (Expr) × Parser :=
  pstep fuel .expression p

/-- `assignment`: parse the LHS as a full expression; on `=`, reshape a
`Variable` into `Assign` and a `Get` into `Set`. -/
def assignment (fuel : Nat) (p : Parser) : PRes (Expr) × Parser :=
  pstep fuel .assignment p

/-- `comma`: the comma-operator level, suppressed while
`disableCommaExpr` is set. -/
def comma (fuel : Nat) (p : Parser) : PRes (Expr) × Parser :=
  pstep fuel .comma p

/-- The `for p.match(COMMA)` loop of `comma`. -/
def commaLoop (fuel : Nat) (e : Expr) (p : Parser) : PRes (Expr) × Parser :=
  pstep fuel (.commaLoop e) p

/-- `conditional` (`?:`). -/
def conditional (fuel : Nat) (p : Parser) : PRes (Expr) × Parser :=
  pstep fuel .conditional p

/-- The `for p.match(QUESTION_MARK)` loop of `conditional`. -/
def conditionalLoop (fuel : Nat) (e : Expr) (p : Parser) : PRes (Expr) × Parser :=
  pstep fuel (.conditionalLoop e) p

/-- `or`. -/
def orExpr (fuel : Nat) (p : Parser) : PRes (Expr) × Parser :=
  pstep fuel .orExpr p

/-- The `or` loop. -/
def orLoop (fuel : Nat) (e : Expr) (p : Parser) : PRes (Expr) × Parser :=
  pstep fuel (.orLoop e) p

/-- `and`. -/
def andExpr (fuel : Nat) (p : Parser) : PRes (Expr) × Parser :=
  pstep fuel .andExpr p

/-- The `and` loop. -/
def andLoop (fuel : Nat) (e : Expr) (p : Parser) : PRes (Expr) × Parser :=
  pstep fuel (.andLoop e) p

/-- `equality`. -/
def equality (fuel : Nat) (p : Parser) : PRes (Expr) × Parser :=
  pstep fuel .equality p

/-- The `equality` loop. -/
def equalityLoop (fuel : Nat) (e : Expr) (p : Parser) : PRes (Expr) × Parser :=
  pstep fuel (.equalityLoop e) p

/-- `comparison`. -/
def comparison (fuel : Nat) (p : Parser) : PRes (Expr) × Parser :=
  pstep fuel .comparison p

/-- The `comparison` loop. -/
def comparisonLoop (fuel : Nat) (e : Expr) (p : Parser) : PRes (Expr) × Parser :=
  pstep fuel (.comparisonLoop e) p

/-- `term`. -/
def term (fuel : Nat) (p : Parser) : PRes (Expr) × Parser :=
  pstep fuel .term p

/-- The `term` loop. -/
def termLoop (fuel : Nat) (e : Expr) (p : Parser) : PRes (Expr) × Parser :=
  pstep fuel (.termLoop e) p

/-- `factor`. -/
def factor (fuel : Nat) (p : Parser) : PRes (Expr) × Parser :=
  pstep fuel .factor p

/-- The `factor` loop. -/
def factorLoop (fuel : Nat) (e : Expr) (p : Parser) : PRes (Expr) × Parser :=
  pstep fuel (.factorLoop e) p

/-- `unary`. -/
def unary (fuel : Nat) (p : Parser) : PRes (Expr) × Parser :=
  pstep fuel .unary p

/-- `call`. -/
def call (fuel : Nat) (p : Parser) : PRes (Expr) × Parser :=
  pstep fuel .call p

/-- The postfix loop of `call` (`"(" arguments? ")"` and `"." IDENT`). -/
def callLoop (fuel : Nat) (e : Expr) (p : Parser) : PRes (Expr) × Parser :=
  pstep fuel (.callLoop e) p

/-- `finishCall`: sets the `disableCommaExpr` latch, parses the argument
list, and clears the latch after the closing paren. -/
def finishCall (fuel : Nat) (c : Expr) (p : Parser) : PRes (Expr) × Parser :=
  pstep fuel (.finishCall c) p

/-- The argument loop of `finishCall`. -/
def argsLoop (fuel : Nat) (acc : List Expr) (p : Parser) : PRes (List Expr) × Parser :=
  pstep fuel (.argsLoop acc) p

/-- `primary`. -/
def primary (fuel : Nat) (p : Parser) : PRes (Expr) × Parser :=
  pstep fuel .primary p


/-- `Parse`'s `for !p.isAtEnd()` declaration loop: note that a failed
`declaration` makes `Parse` return `nil` at once. -/
def ParseLoop : Nat → List Stmt → Parser → PRes (List Stmt) × Parser
  | 0, _, p => (.spin, p)
  | fuel + 1, acc, p =>
    if ¬ p.isAtEnd then
      match declaration fuel p with
      | (.ok s, p) => ParseLoop fuel (acc ++ [s]) p
      | (.err, p) => (.err, p)
      | (.spin, p) => (.spin, p)
    else (.ok acc, p)

/-- `Parse`. -/
def Parse (fuel : Nat) (p : Parser) : PRes (List Stmt) × Parser :=
  ParseLoop fuel [] p

end Parser

/-! ## Runtime values (`lox_function.go`, `lox_class.go`, `interpreter.go`)

Go stores values as `interface{}`.  The possible dynamic types are
`nil`, `bool`, `float64`, `string`, `*LoxFunction`, `*Clock`,
`*LoxClass` and `*LoxInstance`.  Instances are mutable and shared, so a
`*LoxInstance` is a heap id; environments are likewise heap ids.
Functions and classes are immutable after construction and are copied by
value. -/

/-- `lox_function.go`: `LoxFunction` (the `Closure` pointer is an
environment heap id). -/
structure LoxFunction where
  Name : String
  Declaration : FunctionExprData
  Closure : Nat
  isInitializer : Bool := false

/-- `lox_class.go`: `LoxClass` with its method map as an association
list (later same-name insertions overwrite, like the Go map build in
`VisitClassStmt`). -/
structure LoxClass where
  Name : String
  Methods : List (String × LoxFunction)

/-- The runtime value union. -/
inductive Value where
  | vnil
  | vbool (b : Bool)
  | vnum (q : LoxNum)
  | vstr (s : String)
  | vfun (f : LoxFunction)
  | vclock
  | vclass (c : LoxClass)
  | vinst (id : Nat)

/-- `LoxInstance` heap cell (`Fields` is the mutable field bag). -/
structure LoxInstance where
  Class : LoxClass
  Fields : List (String × Value)

/-- `environment.go`: one environment: a name-to-value map plus the
optional `enclosing` parent (a heap id). -/
structure Environment where
  values : List (String × Value)
  enclosing : Option Nat

/-- Association-list read (models a Go `m[k]` two-result read). -/
def assocGet {α : Type} : List (String × α) → String → Option α
  | [], _ => none
  | (k, v) :: rest, key => if k = key then some v else assocGet rest key

/-- Association-list write (models a Go `m[k] = v`). -/
def assocSet {α : Type} : List (String × α) → String → α → List (String × α)
  | [], key, v => [(key, v)]
  | (k, w) :: rest, key, v =>
    if k = key then (k, v) :: rest else (k, w) :: assocSet rest key v

/-- The non-error non-value outcomes of Go's `error` channel
(`error.go`): a `*runtimeError`, the `*breakError` loop signal, or the
`*returnError` signal carrying a value. -/
inductive Signal where
  | rerr (token : Token) (message : String)
  | brk
  | ret (value : Value)

/-- Outcome of one evaluator step: Go's `(value, error)` pair split into
`ok` / `sig` (non-nil error), plus `crash` for a Go panic (nil
dereference or failed type assertion) and `spin` for fuel exhaustion (a
model artifact standing for non-termination). -/
inductive Res (α : Type) where
  | ok (a : α)
  | sig (s : Signal)
  | crash
  | spin

/-- `interpreter.go`'s `Interpreter` state together with the heaps the
Go runtime keeps implicit: the environment cells, the instance cells,
the shared sink, the `fmt.Println` output of `print`, and the wall clock
read by the native `clock`. -/
structure IState where
  envs : List Environment
  insts : List LoxInstance := []
  environment : Nat
  globals : Nat
  locals : List (Nat × Nat) := []
  ep : ErrorPrinter := {}
  output : List String := []
  now : LoxNum := ⟨0, 1⟩

namespace IState

/-- The environment cell at a heap id (ids are only ever allocated by
`newEnvironment`, so the default is dead). -/
def envAt (st : IState) (e : Nat) : Environment := st.envs.getD e ⟨[], none⟩

/-- The instance cell at a heap id. -/
def instAt (st : IState) (i : Nat) : LoxInstance :=
  st.insts.getD i ⟨⟨"", []⟩, []⟩

/-- `NewEnvironment(enclosing)`: allocate a fresh environment cell. -/
def newEnvironment (st : IState) (enclosing : Option Nat) : Nat × IState :=
  (st.envs.length, { st with envs := st.envs ++ [⟨[], enclosing⟩] })

/-- `Environment.Define` on the cell `e`. -/
def Define (st : IState) (e : Nat) (name : String) (v : Value) : IState :=
  { st with envs := st.envs.set e { st.envAt e with values := assocSet (st.envAt e).values name v } }

/-- `Environment.Get`'s recursion (structural on a fuel that the caller
sets to the heap size, an upper bound on the acyclic chain length). -/
def GetAux (st : IState) : Nat → Nat → Token → Res Value
  | 0, _, _ => .crash
  | fuel + 1, e, name =>
    match assocGet (st.envAt e).values name.lexeme with
    | some v => .ok v
    | none =>
      match (st.envAt e).enclosing with
      | some parent => st.GetAux fuel parent name
      | none => .sig (.rerr name ("Undefined variable '" ++ name.lexeme ++ "'."))

/-- `Environment.Get` from the cell `e`. -/
def Get (st : IState) (e : Nat) (name : Token) : Res Value :=
  st.GetAux (st.envs.length + 1) e name

/-- `Environment.Assign`'s recursion. -/
def AssignAux (st : IState) : Nat → Nat → Token → Value → Res Unit × IState
  | 0, _, _, _ => (.crash, st)
  | fuel + 1, e, name, v =>
    match assocGet (st.envAt e).values name.lexeme with
    | some _ => (.ok (), st.Define e name.lexeme v)
    | none =>
      match (st.envAt e).enclosing with
      | some parent => st.AssignAux fuel parent name v
      | none => (.sig (.rerr name ("Undefined variable '" ++ name.lexeme ++ "'.")), st)

/-- `Environment.Assign` from the cell `e`. -/
def Assign (st : IState) (e : Nat) (name : Token) (v : Value) :
    Res Unit × IState :=
  st.AssignAux (st.envs.length + 1) e name v

/-- `Environment.ancestor`: walk `distance` `enclosing` links.  `none`
models the Go nil-pointer panic raised when the chain is shorter than
`distance`. -/
def ancestor (st : IState) (e : Nat) : Nat → Option Nat
  | 0 => some e
  | d + 1 =>
    match (st.envAt e).enclosing with
    | some parent => st.ancestor parent d
    | none => none

/-- `Environment.GetAt`: the map read at the destination scope defaults
to the zero value `nil` (Go `map` read of a missing key). -/
def GetAt (st : IState) (e : Nat) (distance : Nat) (name : String) : Res Value :=
  match st.ancestor e distance with
  | some dest => .ok ((assocGet (st.envAt dest).values name).getD Value.vnil)
  | none => .crash

/-- `Environment.AssignAt`. -/
def AssignAt (st : IState) (e : Nat) (distance : Nat) (name : Token)
    (v : Value) : Option IState :=
  match st.ancestor e distance with
  | some dest => some (st.Define dest name.lexeme v)
  | none => none

end IState

/-- `isTruthy` (`interpreter.go`): only `nil` and `false` are falsey. -/
def isTruthy : Value → Bool
  | .vnil => false
  | .vbool b => b
  | _ => true

/-- The `BANG` branch of `VisitUnaryExpr`: `!isTruthy(right)`. -/
def evalUnaryBang (v : Value) : Value := .vbool (!isTruthy v)

/-- Go `int(f)` conversion: float-to-int truncation toward zero. -/
def ratTrunc (q : LoxNum) : Int := q.num.tdiv q.den

/-- Fractional-digit expansion (numerator remainder over denominator)
used by `formatFloatShortest`; the remainder hits zero on every value a
`float64` can hold. -/
def fracDigits : Nat → Nat → Nat → String
  | 0, _, _ => ""
  | fuel + 1, r, d =>
    if r = 0 then ""
    else toString (r * 10 / d) ++ fracDigits fuel (r * 10 % d) d

/-- Models `strconv.FormatFloat(f, 'f', -1, 64)`: plain decimal form,
no exponent, no trailing `.0` for integral values.  Exact for the
terminating decimals that `float64` values are. -/
def formatFloatShortest (q : LoxNum) : String :=
  if q.num.tmod q.den = 0 then toString (q.num.tdiv q.den)
  else
    let sign := if q.num < 0 then "-" else ""
    let n := q.num.natAbs
    let d := q.den.natAbs
    sign ++ toString (n / d) ++ "." ++ fracDigits 1200 (n % d) d

/-- `stringify` (`interpreter.go`): note the number branch is
`strconv.Itoa(int(v.(float64)))` — integer truncation — and the other
branches are `fmt.Sprintf("%v", v)`, which calls the `String()` methods
of `*LoxFunction`, `*Clock`, `*LoxClass` and `*LoxInstance`.  The state
argument only serves the instance branch (`CLASSNAME instance`). -/
def stringify (st : IState) : Value → String
  | .vnil => "nil"
  | .vnum q => toString (ratTrunc q)
  | .vbool b => if b then "true" else "false"
  | .vstr s => s
  | .vfun f => if f.Name = "" then "<anonymous function>" else "<function: " ++ f.Name ++ ">"
  | .vclock => "<native function: clock>"
  | .vclass c => c.Name
  | .vinst i => (st.instAt i).Class.Name ++ " instance"

/-- Go interface equality `left == right` on runtime values.  Values of
different dynamic types compare unequal; `nil == nil` is true; numbers,
booleans and strings compare by payload; instances compare by pointer
(heap id).  Two function or class values compare by Go pointer; no
program examined below compares them, and the model returns `false`
(fresh allocations are never pointer-equal). -/
def valueEq : Value → Value → Bool
  | .vnil, .vnil => true
  | .vbool a, .vbool b => a = b
  | .vnum a, .vnum b => a.qEq b
  | .vstr a, .vstr b => a = b
  | .vinst i, .vinst j => i = j
  | .vclock, .vclock => true
  | _, _ => false

/-- `isFloat64`. -/
def isFloat64 : Value → Bool
  | .vnum _ => true
  | _ => false

/-- `isString`. -/
def isString : Value → Bool
  | .vstr _ => true
  | _ => false

/-- `checkNumberOperands` then the operator dispatch of
`VisitBinaryExpr`, as a pure function of the two operand values. -/
def evalBinaryOp (operator : Token) (left right : Value) : Res Value :=
  match operator.type with
  | .GREATER =>
    match left, right with
    | .vnum a, .vnum b => .ok (.vbool (b.qLt a))
    | _, _ => .sig (.rerr operator "Operands must be numbers.")
  | .GREATER_EQUAL =>
    match left, right with
    | .vnum a, .vnum b => .ok (.vbool (b.qLe a))
    | _, _ => .sig (.rerr operator "Operands must be numbers.")
  | .LESS =>
    match left, right with
    | .vnum a, .vnum b => .ok (.vbool (a.qLt b))
    | _, _ => .sig (.rerr operator "Operands must be numbers.")
  | .LESS_EQUAL =>
    match left, right with
    | .vnum a, .vnum b => .ok (.vbool (a.qLe b))
    | _, _ => .sig (.rerr operator "Operands must be numbers.")
  | .BANG_EQUAL => .ok (.vbool (!(valueEq left right)))
  | .EQUAL_EQUAL => .ok (.vbool (valueEq left right))
  | .MINUS =>
    match left, right with
    | .vnum a, .vnum b => .ok (.vnum (a.qSub b))
    | _, _ => .sig (.rerr operator "Operands must be numbers.")
  | .PLUS =>
    match left, right with
    | .vnum a, .vnum b => .ok (.vnum (a.qAdd b))
    | .vstr a, .vstr b => .ok (.vstr (a ++ b))
    | .vstr a, .vnum b => .ok (.vstr (a ++ formatFloatShortest b))
    | .vnum a, .vstr b => .ok (.vstr (formatFloatShortest a ++ b))
    | _, _ => .sig (.rerr operator "both operands must be numbers or strings.")
  | .SLASH =>
    match left, right with
    | .vnum a, .vnum b =>
      if b.qIsZero then .sig (.rerr operator "divisor can not be 0.")
      else .ok (.vnum (a.qDiv b))
    | _, _ => .sig (.rerr operator "Operands must be numbers.")
  | .STAR =>
    match left, right with
    | .vnum a, .vnum b => .ok (.vnum (a.qMul b))
    | _, _ => .sig (.rerr operator "Operands must be numbers.")
  | _ => .ok .vnil

/-- The `Literal` payload as a runtime value. -/
def litToValue : LitVal → Value
  | .vnil => .vnil
  | .vbool b => .vbool b
  | .vnum q => .vnum q
  | .vstr s => .vstr s

/-- `LoxFunction.Arity`. -/
def LoxFunction.Arity (f : LoxFunction) : Nat := f.Declaration.paramters.length

/-- `LoxClass.findMethod`. -/
def LoxClass.findMethod (c : LoxClass) (name : String) : Option LoxFunction :=
  assocGet c.Methods name

/-- `LoxClass.Arity`: the initializer's arity, or 0. -/
def LoxClass.Arity (c : LoxClass) : Nat :=
  match c.findMethod "init" with
  | none => 0
  | some ini => ini.Arity

/-- The `callee.(LoxCallable)` type test of `VisitCallExpr`. -/
def isCallable : Value → Bool
  | .vfun _ => true
  | .vclock => true
  | .vclass _ => true
  | _ => false

/-- `Arity()` through the `LoxCallable` interface (junk 0 on
non-callables, which `VisitCallExpr` rules out first). -/
def arity : Value → Nat
  | .vfun f => f.Arity
  | .vclock => 0
  | .vclass c => c.Arity
  | _ => 0

/-- `LoxFunction.Bind`: allocate a one-entry environment mapping `this`
to the instance in front of the closure (the Go constructor leaves
`Name` at its zero value `""`). -/
def LoxFunction.Bind (st : IState) (f : LoxFunction) (instId : Nat) :
    LoxFunction × IState :=
  let (e, st) := st.newEnvironment (some f.Closure)
  let st := st.Define e "this" (.vinst instId)
  ({ Name := "", Declaration := f.Declaration, Closure := e,
     isInitializer := f.isInitializer }, st)

/-- `LoxInstance.Get`: fields first, then a bound method, else
*Undefined property*. -/
def instanceGet (st : IState) (i : Nat) (name : Token) :
    Res Value × IState :=
  let inst := st.instAt i
  match assocGet inst.Fields name.lexeme with
  | some v => (.ok v, st)
  | none =>
    match inst.Class.findMethod name.lexeme with
    | some m =>
      let (bound, st) := m.Bind st i
      (.ok (.vfun bound), st)
    | none =>
      (.sig (.rerr name ("Undefined property '" ++ name.lexeme ++ "'.")), st)

/-- `LoxInstance.Set`. -/
def instanceSet (st : IState) (i : Nat) (name : Token) (v : Value) : IState :=
  { st with
    insts := st.insts.set i
      { st.instAt i with Fields := assocSet (st.instAt i).Fields name.lexeme v } }

/-- `lookUpVariable`: a hop entry in `locals` sends the read through
`GetAt` from the current environment; otherwise the read is a dynamic
`Get` on `globals`. -/
def lookUpVariable (st : IState) (name : Token) (nid : Nat) : Res Value :=
  match st.locals.lookup nid with
  | some distance => st.GetAt st.environment distance name.lexeme
  | none => st.Get st.globals name

/-- Parameter binding loop of `LoxFunction.Call` (`arguments[i]` per
parameter; the caller guards the lengths). -/
def bindParams (e : Nat) : List Token → List Value → IState → IState
  | [], _, st => st
  | _ :: _, [], st => st
  | p :: ps, a :: rest, st => bindParams e ps rest (st.Define e p.lexeme a)

/-- Sequencing for evaluator results: Go's `if err != nil { return }`. -/
def rbind {α β : Type} (x : Res α × IState) (k : α → IState → Res β × IState) :
    Res β × IState :=
  match x with
  | (.ok a, st) => k a st
  | (.sig s, st) => (.sig s, st)
  | (.crash, st) => (.crash, st)
  | (.spin, st) => (.spin, st)

/-- Sequencing with a signal handler: Go's `if err != nil` blocks that
inspect the error (the `while` body catching `*breakError`, the function
call catching `*returnError`, the class call discarding both results).
A `crash` (Go panic) or `spin` always propagates. -/
def rcatch {α β : Type} (x : Res α × IState)
    (hok : α → IState → Res β × IState)
    (hsig : Signal → IState → Res β × IState) : Res β × IState :=
  match x with
  | (.ok a, st) => hok a st
  | (.sig s, st) => hsig s st
  | (.crash, st) => (.crash, st)
  | (.spin, st) => (.spin, st)

/-- The evaluator procedures of `interpreter.go`, `lox_function.go`
and `lox_class.go` as one defunctionalized request type; a single
structurally recursive `estep` keeps kernel reduction of concrete
executions tractable.  The named wrappers below it are the Go
functions. -/
inductive ERq where
  | expr (e : Expr)
  | argList (es : List Expr)
  | stmt (s : Stmt)
  | stmtList (ss : List Stmt)
  | blockStmts (ss : List Stmt) (env : Nat)
  | whileStep (c : Expr) (b : Stmt)
  | callDispatch (v : Value) (vs : List Value)
  | functionCall (f : LoxFunction) (vs : List Value)
  | classCall (c : LoxClass) (vs : List Value)

/-- Result type of each evaluator request. -/
@[reducible] def ERT : ERq → Type
  | .expr _ => Value
  | .argList _ => List Value
  | .stmt _ => Unit
  | .stmtList _ => Unit
  | .blockStmts _ _ => Unit
  | .whileStep _ _ => Unit
  | .callDispatch _ _ => Value
  | .functionCall _ _ => Value
  | .classCall _ _ => Value

/-- One fueled step of the evaluator: the bodies are the Go functions,
case by case; every recursive call consumes one unit of fuel. -/
def estep : (fuel : Nat) → (q : ERq) → IState → Res (ERT q) × IState
  | 0, _, st => (.spin, st)
  | fuel + 1, q, st =>
    match q with
    | .expr e =>
      match e with
      | .Literal v => (.ok (litToValue v), st)
      | .Grouping g => estep fuel (.expr g) st
      | .Unary operator right =>
        rbind (estep fuel (.expr right) st) fun r st =>
          if operator.type = TokenType.BANG then (.ok (evalUnaryBang r), st)
          else if operator.type = TokenType.MINUS then
            match r with
            | .vnum q => (.ok (.vnum q.qNeg), st)
            | _ => (.sig (.rerr operator "Operand must be a number."), st)
          else (.ok .vnil, st)
      | .Binary l operator r =>
        rbind (estep fuel (.expr l) st) fun lv st =>
        rbind (estep fuel (.expr r) st) fun rv st =>
        (evalBinaryOp operator lv rv, st)
      | .Conditional c t a =>
        rbind (estep fuel (.expr c) st) fun cv st =>
          if isTruthy cv then estep fuel (.expr t) st else estep fuel (.expr a) st
      | .Logical l operator r =>
        rbind (estep fuel (.expr l) st) fun lv st =>
          if operator.type = TokenType.OR then
            if isTruthy lv then (.ok lv, st) else estep fuel (.expr r) st
          else
            if ¬ isTruthy lv then (.ok lv, st) else estep fuel (.expr r) st
      | .Variable name nid => (lookUpVariable st name nid, st)
      | .Assign name value nid =>
        rbind (estep fuel (.expr value) st) fun v st =>
          match st.locals.lookup nid with
          | some distance =>
            match st.AssignAt st.environment distance name v with
            | some st => (.ok v, st)
            | none => (.crash, st)
          | none =>
            rbind (st.Assign st.globals name v) fun _ st => (.ok v, st)
      | .Call callee paren arguments =>
        rbind (estep fuel (.expr callee) st) fun cv st =>
        rbind (estep fuel (.argList arguments) st) fun argv st =>
          if ¬ isCallable cv then
            (.sig (.rerr paren "Can only call functions and classes."), st)
          else if argv.length ≠ arity cv then
            (.sig (.rerr paren ("Expected " ++ toString (arity cv) ++
              " arguments but got " ++ toString argv.length ++ ".")), st)
          else estep fuel (.callDispatch cv argv) st
      | .FunctionExpr fe =>
        (.ok (.vfun { Name := "", Declaration := fe, Closure := st.environment }), st)
      | .Get obj name =>
        rbind (estep fuel (.expr obj) st) fun ov st =>
          match ov with
          | .vinst i => instanceGet st i name
          | _ => (.sig (.rerr name "Only instances have properties."), st)
      | .Set obj name value =>
        rbind (estep fuel (.expr obj) st) fun ov st =>
          match ov with
          | .vinst i =>
            rbind (estep fuel (.expr value) st) fun v st =>
            (.ok v, instanceSet st i name v)
          | _ => (.sig (.rerr name "Only instances have fields."), st)
      | .This keyword nid => (lookUpVariable st keyword nid, st)
    | .argList args =>
      match args with
      | [] => (.ok [], st)
      | a :: rest =>
        rbind (estep fuel (.expr a) st) fun v st =>
        rbind (estep fuel (.argList rest) st) fun vs st =>
        (.ok (v :: vs), st)
    | .stmt s =>
      match s with
      | .Expression e =>
        rbind (estep fuel (.expr e) st) fun _ st => (.ok (), st)
      | .Print e =>
        rbind (estep fuel (.expr e) st) fun v st =>
        (.ok (), { st with output := st.output ++ [stringify st v] })
      | .Var name initializer =>
        let step : Res Value × IState :=
          match initializer with
          | some e => estep fuel (.expr e) st
          | none => (.ok .vnil, st)
        rbind step fun v st =>
        (.ok (), st.Define st.environment name.lexeme v)
      | .Block statements =>
        let (e, st) := st.newEnvironment (some st.environment)
        estep fuel (.blockStmts statements e) st
      | .If condition thenBranch elseBranch =>
        rbind (estep fuel (.expr condition) st) fun cv st =>
          if isTruthy cv then estep fuel (.stmt thenBranch) st
          else
            match elseBranch with
            | some eb => estep fuel (.stmt eb) st
            | none => (.ok (), st)
      | .While condition body => estep fuel (.whileStep condition body) st
      | .Break => (.sig .brk, st)
      | .Return _ value =>
        let step : Res Value × IState :=
          match value with
          | some e => estep fuel (.expr e) st
          | none => (.ok .vnil, st)
        rbind step fun v st =>
        (.sig (.ret v), st)
      | .Function name fe =>
        (.ok (), st.Define st.environment name.lexeme
          (.vfun { Name := name.lexeme, Declaration := fe, Closure := st.environment }))
      | .Class name methods =>
        let st := st.Define st.environment name.lexeme .vnil
        let ms : List (String × LoxFunction) := methods.foldl
          (fun acc nmfe =>
            assocSet acc nmfe.1.lexeme
              { Name := nmfe.1.lexeme, Declaration := nmfe.2,
                Closure := st.environment,
                isInitializer := nmfe.1.lexeme = "init" }) []
        rbind (st.Assign st.environment name (.vclass ⟨name.lexeme, ms⟩)) fun _ st =>
        (.ok (), st)
    | .stmtList stmts =>
      match stmts with
      | [] => (.ok (), st)
      | s :: rest =>
        rbind (estep fuel (.stmt s) st) fun _ st =>
        estep fuel (.stmtList rest) st
    | .blockStmts statements environment =>
      let previous := st.environment
      let result := estep fuel (.stmtList statements) { st with environment := environment }
      (result.1, { result.2 with environment := previous })
    | .whileStep condition body =>
      rbind (estep fuel (.expr condition) st) fun cv st =>
        if isTruthy cv then
          rcatch (estep fuel (.stmt body) st)
            (fun _ st => estep fuel (.whileStep condition body) st)
            (fun sg st =>
              match sg with
              | .brk => (.ok (), st)
              | s => (.sig s, st))
        else (.ok (), st)
    | .callDispatch v args =>
      match v with
      | .vfun f => estep fuel (.functionCall f args) st
      | .vclock => (.ok (.vnum st.now), st)
      | .vclass c => estep fuel (.classCall c args) st
      | _ => (.crash, st)
    | .functionCall f args =>
      let (e, st) := st.newEnvironment (some f.Closure)
      if args.length < f.Declaration.paramters.length then (.crash, st)
      else
        let st := bindParams e f.Declaration.paramters args st
        rcatch (estep fuel (.blockStmts f.Declaration.body e) st)
          (fun _ st =>
            if f.isInitializer then (st.GetAt f.Closure 0 "this", st)
            else (.ok .vnil, st))
          (fun sg st =>
            match sg with
            | .ret rv =>
              if f.isInitializer then (st.GetAt f.Closure 0 "this", st)
              else (.ok rv, st)
            | s => (.sig s, st))
    | .classCall c args =>
      let instId := st.insts.length
      let st := { st with insts := st.insts ++ [⟨c, []⟩] }
      match c.findMethod "init" with
      | none => (.ok (.vinst instId), st)
      | some ini =>
        let (bound, st) := ini.Bind st instId
        rcatch (estep fuel (.functionCall bound args) st)
          (fun _ st => (.ok (.vinst instId), st))
          (fun _ st => (.ok (.vinst instId), st))

/-- `Interpreter.evaluate`: the `ExprVisitor` dispatch of
`interpreter.go`, one case per `VisitXxxExpr`. -/
def evaluate (fuel : Nat) (e : Expr) (st : IState) : Res (Value) × IState :=
  estep fuel (.expr e) st

/-- The left-to-right argument loop of `VisitCallExpr`. -/
def evaluateArgs (fuel : Nat) (es : List Expr) (st : IState) : Res (List Value) × IState :=
  estep fuel (.argList es) st

/-- `Interpreter.execute`: the `StmtVisitor` dispatch, one case per
`VisitXxxStmt`. -/
def execute (fuel : Nat) (s : Stmt) (st : IState) : Res (Unit) × IState :=
  estep fuel (.stmt s) st

/-- The statement loop inside `executeBlock`. -/
def executeStatements (fuel : Nat) (ss : List Stmt) (st : IState) : Res (Unit) × IState :=
  estep fuel (.stmtList ss) st

/-- `executeBlock`: point `environment` at the fresh scope, run the
body, and restore the saved pointer on every exit path (the Go code
restores in a `defer` and on both returns). -/
def executeBlock (fuel : Nat) (ss : List Stmt) (env : Nat) (st : IState) : Res (Unit) × IState :=
  estep fuel (.blockStmts ss env) st

/-- The `for` loop of `VisitWhileStmt`: a `breakError` from the body
ends the loop with a nil error; every other error propagates. -/
def whileLoop (fuel : Nat) (c : Expr) (b : Stmt) (st : IState) : Res (Unit) × IState :=
  estep fuel (.whileStep c b) st

/-- The `LoxCallable.Call` dispatch of `VisitCallExpr` (the `default`
case is dead: `isCallable` was checked).  `Clock.Call` returns the wall
clock, modelled as the state's `now`. -/
def callValue (fuel : Nat) (v : Value) (vs : List Value) (st : IState) : Res (Value) × IState :=
  estep fuel (.callDispatch v vs) st

/-- `LoxFunction.Call` (`lox_function.go`): fresh environment over the
closure, bind parameters, run the body; catch only the return signal;
initializers answer the `this` at hop 0 of their closure.  (A call with
fewer arguments than parameters would panic in Go on `arguments[i]`;
`VisitCallExpr`'s arity check keeps that path dead.) -/
def LoxFunction.Call (fuel : Nat) (f : LoxFunction) (vs : List Value) (st : IState) : Res (Value) × IState :=
  estep fuel (.functionCall f vs) st

/-- `LoxClass.Call` (`lox_class.go`): allocate the instance; if an
`init` method exists, bind and call it with the arguments — Go discards
both results of that call — and return the instance with a nil error.
A Go panic (`crash`) or non-termination (`spin`) inside the initializer
still propagates: those are not `error` values. -/
def LoxClass.Call (fuel : Nat) (c : LoxClass) (vs : List Value) (st : IState) : Res (Value) × IState :=
  estep fuel (.classCall c vs) st


/-- `ErrorPrinter.RuntimeError`: the Go body asserts
`err.(*runtimeError)`; on a break or return signal that assertion fails
and the process panics. -/
def ErrorPrinter.RuntimeError (ep : ErrorPrinter) (s : Signal) : ErrorPrinter :=
  match s with
  | .rerr token message =>
    { ep with
      runtimeLog := ep.runtimeLog ++ [message ++ "\n[line " ++ toString token.line ++ "]"]
      hadRuntimeError := true }
  | _ => { ep with panicked := true }

/-- `Interpreter.Interpret`: execute each statement; report a runtime
error to the sink and continue with the next statement; a panic (from a
failed sink assertion or from inside `execute`) aborts the loop. -/
def Interpret : Nat → List Stmt → IState → IState
  | 0, _, st => st
  | fuel + 1, stmts, st =>
    match stmts with
    | [] => st
    | s :: rest =>
      match execute fuel s st with
      | (.ok _, st) => Interpret fuel rest st
      | (.sig (.rerr token message), st) =>
        Interpret fuel rest { st with ep := st.ep.RuntimeError (.rerr token message) }
      | (.sig _, st) => { st with ep := { st.ep with panicked := true } }
      | (.crash, st) => { st with ep := { st.ep with panicked := true } }
      | (.spin, st) => st

/-- `NewInterpreter`: globals pre-populated with the native `clock`. -/
def NewInterpreter (ep : ErrorPrinter) : IState :=
  { envs := [⟨[("clock", Value.vclock)], none⟩]
    environment := 0
    globals := 0
    ep := ep }

/-- `Glox.run` (`glox.go`): scan, parse, stop when the sink saw a
compile-time error, otherwise interpret.  No other stage runs: in
particular the `Resolver` of `resolver.go` is never constructed or
invoked, so `locals` keeps whatever the interpreter state held (the
empty table, for a fresh interpreter).  `none` is fuel exhaustion. -/
def run (fuel : Nat) (source : String) (st : IState) : Option IState :=
  let (tokens, ep) := scanSource source st.ep
  match Parser.Parse fuel { tokens := tokens, ep := ep } with
  | (.spin, _) => none
  | (.err, p) => some { st with ep := p.ep }
  | (.ok stmts, p) =>
    let st := { st with ep := p.ep }
    if st.ep.hadError then some st
    else some (Interpret fuel stmts st)

/-! ## Concrete inputs used by individual claim theorems -/

/-- Token sequence of `var f = nil; while (!f) f = fun() { break; }; f();`:
an anonymous function literal whose body contains `break`, declared
inside a `while` body and called after the loop has finished.  Fed to
the parser directly: `parser.go` consumes `BREAK` tokens (spec §6.1
lists `break` as a keyword). -/
def c5Tokens : List Token :=
  [ { type := .VAR, lexeme := "var" },
    { type := .IDENTIFIER, lexeme := "f" },
    { type := .EQUAL, lexeme := "=" },
    { type := .NIL, lexeme := "nil" },
    { type := .SEMICOLON, lexeme := ";" },
    { type := .WHILE, lexeme := "while" },
    { type := .LEFT_PAREN, lexeme := "(" },
    { type := .BANG, lexeme := "!" },
    { type := .IDENTIFIER, lexeme := "f" },
    { type := .RIGHT_PAREN, lexeme := ")" },
    { type := .IDENTIFIER, lexeme := "f" },
    { type := .EQUAL, lexeme := "=" },
    { type := .FUN, lexeme := "fun" },
    { type := .LEFT_PAREN, lexeme := "(" },
    { type := .RIGHT_PAREN, lexeme := ")" },
    { type := .LEFT_BRACE, lexeme := "\x7b" },
    { type := .BREAK, lexeme := "break" },
    { type := .SEMICOLON, lexeme := ";" },
    { type := .RIGHT_BRACE, lexeme := "\x7d" },
    { type := .SEMICOLON, lexeme := ";" },
    { type := .IDENTIFIER, lexeme := "f" },
    { type := .LEFT_PAREN, lexeme := "(" },
    { type := .RIGHT_PAREN, lexeme := ")" },
    { type := .SEMICOLON, lexeme := ";" },
    { type := .EOF } ]

/-- The closing-paren token of the call in the C6 witness. -/
def c6Paren : Token := { type := .RIGHT_PAREN, lexeme := ")" }

/-- A class whose `init` raises a runtime error (`1 / 0`) in its body:
`class P { init() { 1 / 0; } }` as the evaluator sees it. -/
def c9BadClass : LoxClass :=
  { Name := "P"
    Methods := [("init",
      { Name := "init"
        Declaration := .mk []
          [Stmt.Expression (Expr.Binary (Expr.Literal (LitVal.vnum ⟨1, 1⟩))
            { type := .SLASH, lexeme := "/" } (Expr.Literal (LitVal.vnum ⟨0, 1⟩)))]
        Closure := 0
        isInitializer := true })] }

/-- A state with a two-link environment chain (globals below one local
scope), the current environment at the inner scope, and one hop entry
`nid 5 ↦ distance 1` in the side-table. -/
def c10State : IState :=
  { envs := [⟨[("clock", Value.vclock)], none⟩, ⟨[], some 0⟩]
    environment := 1
    globals := 0
    locals := [(5, 1)] }

/-! ## Preservation of the `globals` and `locals` fields

Nothing in the evaluator writes the `globals` pointer or the `locals`
side-table: `globals` is only set by `NewInterpreter` and `locals` only
by `Interpreter.resolve`, which the execution path never calls.  The
lemmas below make that precise for every evaluator function at once, by
induction on fuel. -/

/-- Both read-only interpreter fields agree between two states. -/
def GLP (st st' : IState) : Prop :=
  st'.globals = st.globals ∧ st'.locals = st.locals

theorem GLP.refl {st : IState} : GLP st st := ⟨rfl, rfl⟩

theorem GLP.trans {a b c : IState} (h1 : GLP a b) (h2 : GLP b c) : GLP a c :=
  ⟨h2.1.trans h1.1, h2.2.trans h1.2⟩

theorem GLP_Define {st : IState} {e : Nat} {n : String} {v : Value} :
    GLP st (st.Define e n v) := ⟨rfl, rfl⟩

theorem GLP_newEnvironment {st : IState} {enc : Option Nat} :
    GLP st (st.newEnvironment enc).2 := ⟨rfl, rfl⟩

theorem GLP_instanceSet {st : IState} {i : Nat} {n : Token} {v : Value} :
    GLP st (instanceSet st i n v) := ⟨rfl, rfl⟩

theorem GLP_AssignAux {st : IState} :
    ∀ (fuel e : Nat) (name : Token) (v : Value),
      GLP st (st.AssignAux fuel e name v).2 := by
  intro fuel
  induction fuel with
  | zero => intro e name v; exact GLP.refl
  | succ f ih =>
    intro e name v
    simp only [IState.AssignAux]
    rcases h : assocGet (st.envAt e).values name.lexeme with _ | w
    · simp only [h]
      rcases h2 : (st.envAt e).enclosing with _ | parent
      · simp only [h2]; exact GLP.refl
      · simp only [h2]; exact ih parent name v
    · simp only [h]; exact GLP_Define

theorem GLP_Assign {st : IState} {e : Nat} {name : Token} {v : Value} :
    GLP st (st.Assign e name v).2 := GLP_AssignAux _ _ _ _

theorem GLP_AssignAt {st : IState} {e d : Nat} {name : Token} {v : Value}
    {st' : IState} (h : st.AssignAt e d name v = some st') : GLP st st' := by
  unfold IState.AssignAt at h
  rcases h2 : st.ancestor e d with _ | dest
  · simp [h2] at h
  · simp only [h2] at h
    cases h
    exact GLP_Define

theorem GLP_Bind {st : IState} {f : LoxFunction} {i : Nat} :
    GLP st (f.Bind st i).2 := by
  unfold LoxFunction.Bind
  exact GLP.trans (GLP_newEnvironment) GLP_Define

theorem GLP_instanceGet {st : IState} {i : Nat} {name : Token} :
    GLP st (instanceGet st i name).2 := by
  unfold instanceGet
  rcases h : assocGet (st.instAt i).Fields name.lexeme with _ | v
  · simp only [h]
    rcases h2 : (st.instAt i).Class.findMethod name.lexeme with _ | m
    · simp only [h2]; exact GLP.refl
    · simp only [h2]; exact GLP_Bind
  · simp only [h]; exact GLP.refl

theorem GLP_bindParams {e : Nat} :
    ∀ (ps : List Token) (args : List Value) (st : IState),
      GLP st (bindParams e ps args st) := by
  intro ps
  induction ps with
  | nil => intro args st; cases args <;> exact GLP.refl
  | cons p rest ih =>
    intro args st
    cases args with
    | nil => exact GLP.refl
    | cons a more => exact GLP.trans GLP_Define (ih more _)

theorem GLP_rbind {α β : Type} {x : Res α × IState}
    {k : α → IState → Res β × IState} {st : IState}
    (hx : GLP st x.2) (hk : ∀ a s, GLP s (k a s).2) :
    GLP st (rbind x k).2 := by
  rcases x with ⟨r, s⟩
  cases r with
  | ok a => exact GLP.trans hx (hk a s)
  | sig sg => exact hx
  | crash => exact hx
  | spin => exact hx

theorem GLP_rcatch {α β : Type} {x : Res α × IState}
    {hok : α → IState → Res β × IState}
    {hsig : Signal → IState → Res β × IState} {st : IState}
    (hx : GLP st x.2) (h1 : ∀ a s, GLP s (hok a s).2)
    (h2 : ∀ sg s, GLP s (hsig sg s).2) :
    GLP st (rcatch x hok hsig).2 := by
  rcases x with ⟨r, s⟩
  cases r with
  | ok a => exact GLP.trans hx (h1 a s)
  | sig sg => exact GLP.trans hx (h2 sg s)
  | crash => exact hx
  | spin => exact hx

/-- Evaluation never writes the `globals` pointer or the `locals`
side-table: statement over every evaluator request at once, by
induction on fuel. -/
theorem estep_preserves_gl : ∀ (fuel : Nat) (q : ERq) (st : IState),
    GLP st (estep fuel q st).2 := by
  intro fuel
  induction fuel with
  | zero => intro q st; exact GLP.refl
  | succ f ih =>
    have ihEval : ∀ (e : Expr) (st : IState), GLP st (estep f (.expr e) st).2 :=
      fun e st => ih _ st
    have ihArgs : ∀ (es : List Expr) (st : IState), GLP st (estep f (.argList es) st).2 :=
      fun es st => ih _ st
    have ihExec : ∀ (s : Stmt) (st : IState), GLP st (estep f (.stmt s) st).2 :=
      fun s st => ih _ st
    have ihStmts : ∀ (ss : List Stmt) (st : IState), GLP st (estep f (.stmtList ss) st).2 :=
      fun ss st => ih _ st
    have ihBlock : ∀ (ss : List Stmt) (e : Nat) (st : IState),
        GLP st (estep f (.blockStmts ss e) st).2 :=
      fun ss e st => ih _ st
    have ihWhile : ∀ (c : Expr) (b : Stmt) (st : IState),
        GLP st (estep f (.whileStep c b) st).2 :=
      fun c b st => ih _ st
    have ihCall : ∀ (v : Value) (args : List Value) (st : IState),
        GLP st (estep f (.callDispatch v args) st).2 :=
      fun v args st => ih _ st
    have ihFn : ∀ (g : LoxFunction) (args : List Value) (st : IState),
        GLP st (estep f (.functionCall g args) st).2 :=
      fun g args st => ih _ st
    have ihCls : ∀ (c : LoxClass) (args : List Value) (st : IState),
        GLP st (estep f (.classCall c args) st).2 :=
      fun c args st => ih _ st
    intro q st
    cases q with
    | expr e =>
      cases e with
      | Literal v => exact GLP.refl
      | Grouping g => exact ihEval g st
      | Unary op right =>
        refine GLP_rbind (ihEval right st) ?_
        intro r s
        by_cases h1 : op.type = TokenType.BANG
        · rw [if_pos h1]; exact GLP.refl
        · rw [if_neg h1]
          by_cases h2 : op.type = TokenType.MINUS
          · rw [if_pos h2]; cases r <;> exact GLP.refl
          · rw [if_neg h2]; exact GLP.refl
      | Binary l op r =>
        refine GLP_rbind (ihEval l st) ?_
        intro lv s
        exact GLP_rbind (ihEval r s) (fun rv s2 => GLP.refl)
      | Conditional c t a =>
        refine GLP_rbind (ihEval c st) ?_
        intro cv s
        by_cases h : isTruthy cv
        · rw [if_pos h]; exact ihEval t s
        · rw [if_neg h]; exact ihEval a s
      | Logical l op r =>
        refine GLP_rbind (ihEval l st) ?_
        intro lv s
        by_cases h1 : op.type = TokenType.OR
        · rw [if_pos h1]
          by_cases h2 : isTruthy lv
          · rw [if_pos h2]; exact GLP.refl
          · rw [if_neg h2]; exact ihEval r s
        · rw [if_neg h1]
          by_cases h2 : isTruthy lv
          · rw [if_neg (by simpa using h2)]; exact ihEval r s
          · rw [if_pos (by simpa using h2)]; exact GLP.refl
      | Variable name nid => exact GLP.refl
      | Assign name value nid =>
        refine GLP_rbind (ihEval value st) ?_
        intro v s
        rcases h : s.locals.lookup nid with _ | d
        · simp only [h]
          exact GLP_rbind GLP_Assign (fun _ s2 => GLP.refl)
        · simp only [h]
          rcases h2 : s.AssignAt s.environment d name v with _ | s2
          · simp only [h2]; exact GLP.refl
          · simp only [h2]; exact GLP_AssignAt h2
      | Call callee paren arguments =>
        refine GLP_rbind (ihEval callee st) ?_
        intro cv s
        refine GLP_rbind (ihArgs arguments s) ?_
        intro argv s2
        by_cases h1 : isCallable cv
        · rw [if_neg (by simpa using h1)]
          by_cases h2 : argv.length = arity cv
          · rw [if_neg (by simpa using h2)]
            exact ihCall cv argv s2
          · rw [if_pos h2]
            exact GLP.refl
        · rw [if_pos (by simpa using h1)]
          exact GLP.refl
      | FunctionExpr fe => exact GLP.refl
      | Get obj name =>
        refine GLP_rbind (ihEval obj st) ?_
        intro ov s
        cases ov with
        | vinst i => exact GLP_instanceGet
        | vnil => exact GLP.refl
        | vbool _ => exact GLP.refl
        | vnum _ => exact GLP.refl
        | vstr _ => exact GLP.refl
        | vfun _ => exact GLP.refl
        | vclock => exact GLP.refl
        | vclass _ => exact GLP.refl
      | Set obj name value =>
        refine GLP_rbind (ihEval obj st) ?_
        intro ov s
        cases ov with
        | vinst i =>
          refine GLP_rbind (ihEval value s) ?_
          intro v s2
          exact GLP_instanceSet
        | vnil => exact GLP.refl
        | vbool _ => exact GLP.refl
        | vnum _ => exact GLP.refl
        | vstr _ => exact GLP.refl
        | vfun _ => exact GLP.refl
        | vclock => exact GLP.refl
        | vclass _ => exact GLP.refl
      | This kw nid => exact GLP.refl
    | argList es =>
      cases es with
      | nil => exact GLP.refl
      | cons a rest =>
        refine GLP_rbind (ihEval a st) ?_
        intro v s
        exact GLP_rbind (ihArgs rest s) (fun vs s2 => GLP.refl)
    | stmt s =>
      cases s with
      | Expression e => exact GLP_rbind (ihEval e st) (fun _ _ => GLP.refl)
      | Print e => exact GLP_rbind (ihEval e st) (fun _ _ => GLP.refl)
      | Var name initializer =>
        refine GLP_rbind ?_ (fun v s2 => GLP_Define)
        cases initializer with
        | none => exact GLP.refl
        | some e => exact ihEval e st
      | Block statements =>
        exact GLP.trans GLP_newEnvironment (ihBlock statements _ _)
      | If condition thenBranch elseBranch =>
        refine GLP_rbind (ihEval condition st) ?_
        intro cv s
        by_cases h : isTruthy cv
        · rw [if_pos h]; exact ihExec thenBranch s
        · rw [if_neg h]
          cases elseBranch with
          | none => exact GLP.refl
          | some eb => exact ihExec eb s
      | While condition body => exact ihWhile condition body st
      | Break => exact GLP.refl
      | Return kw value =>
        refine GLP_rbind ?_ (fun v s2 => GLP.refl)
        cases value with
        | none => exact GLP.refl
        | some e => exact ihEval e st
      | Function name fe => exact GLP_Define
      | Class name methods =>
        exact GLP_rbind (GLP.trans GLP_Define GLP_Assign) (fun _ s2 => GLP.refl)
    | stmtList ss =>
      cases ss with
      | nil => exact GLP.refl
      | cons s rest =>
        exact GLP_rbind (ihExec s st) (fun _ s2 => ihStmts rest s2)
    | blockStmts ss e =>
      obtain ⟨h1, h2⟩ := ihStmts ss { st with environment := e }
      exact ⟨h1, h2⟩
    | whileStep c b =>
      refine GLP_rbind (ihEval c st) ?_
      intro cv s
      by_cases h : isTruthy cv
      · rw [if_pos h]
        refine GLP_rcatch (ihExec b s) (fun _ s2 => ihWhile c b s2) ?_
        intro sg s2
        cases sg <;> exact GLP.refl
      · rw [if_neg h]; exact GLP.refl
    | callDispatch v args =>
      cases v with
      | vfun fn => exact ihFn fn args st
      | vclock => exact GLP.refl
      | vclass c => exact ihCls c args st
      | vnil => exact GLP.refl
      | vbool _ => exact GLP.refl
      | vnum _ => exact GLP.refl
      | vstr _ => exact GLP.refl
      | vinst _ => exact GLP.refl
    | functionCall fn args =>
      by_cases hlen : args.length < fn.Declaration.paramters.length
      · have hcrash : estep (f + 1) (.functionCall fn args) st =
            (Res.crash, (st.newEnvironment (some fn.Closure)).2) := by
          simp only [estep, hlen, if_true]
        rw [hcrash]
        exact GLP_newEnvironment
      · have hrw : estep (f + 1) (.functionCall fn args) st =
            rcatch (estep f (.blockStmts fn.Declaration.body
                (st.newEnvironment (some fn.Closure)).1)
                (bindParams (st.newEnvironment (some fn.Closure)).1
                  fn.Declaration.paramters args (st.newEnvironment (some fn.Closure)).2))
              (fun _ st =>
                if fn.isInitializer then (st.GetAt fn.Closure 0 "this", st)
                else (.ok .vnil, st))
              (fun sg st =>
                match sg with
                | .ret rv =>
                  if fn.isInitializer then (st.GetAt fn.Closure 0 "this", st)
                  else (.ok rv, st)
                | s => (.sig s, st)) := by
          simp only [estep, hlen, if_false]
        rw [hrw]
        refine GLP_rcatch ?_ ?_ ?_
        · exact GLP.trans GLP_newEnvironment
            (GLP.trans (GLP_bindParams _ _ _) (ihBlock _ _ _))
        · intro a s2
          by_cases hi : fn.isInitializer
          · rw [if_pos hi]; exact GLP.refl
          · rw [if_neg hi]; exact GLP.refl
        · intro sg s2
          cases sg with
          | ret rv =>
            show GLP s2 (if fn.isInitializer = true
                then (s2.GetAt fn.Closure 0 "this", s2) else (Res.ok rv, s2)).2
            by_cases hi : fn.isInitializer
            · rw [if_pos hi]; exact GLP.refl
            · rw [if_neg hi]; exact GLP.refl
          | rerr t m => exact GLP.refl
          | brk => exact GLP.refl
    | classCall c args =>
      rcases h : c.findMethod "init" with _ | ini
      · have hok : estep (f + 1) (.classCall c args) st =
            ((.ok (.vinst st.insts.length) : Res Value),
              { st with insts := st.insts ++ [⟨c, []⟩] }) := by
          simp only [estep, h]
        rw [hok]
        exact GLP.refl
      · have hrw : estep (f + 1) (.classCall c args) st =
            rcatch (estep f (.functionCall
                (ini.Bind { st with insts := st.insts ++ [⟨c, []⟩] } st.insts.length).1 args)
                (ini.Bind { st with insts := st.insts ++ [⟨c, []⟩] } st.insts.length).2)
              (fun _ s2 => (.ok (.vinst st.insts.length), s2))
              (fun _ s2 => (.ok (.vinst st.insts.length), s2)) := by
          simp only [estep, h]
        rw [hrw]
        refine GLP_rcatch ?_ ?_ ?_
        · exact GLP.trans (⟨rfl, rfl⟩ : GLP st { st with insts := st.insts ++ [⟨c, []⟩] })
            (GLP.trans GLP_Bind (ihFn _ _ _))
        · intro a s2; exact GLP.refl
        · intro sg s2; exact GLP.refl

/-! ## The claims -/

set_option maxHeartbeats 1600000 in
/-- C1: the claim says `Glox.run` executes scanner, parser, resolver and
evaluator, the resolver populating the interpreter's `locals` side-table
before `Interpret` runs.  The code has no resolver step: `run` goes
scanner → parser → `Interpret`, nothing constructs a `Resolver`, and
`locals` stays empty.  At the program `{ var a = 1; print a; }` the
parse succeeds (`hadError` false), the side-table is still empty when
execution starts, and the block-local read of `a` falls back to a
dynamic lookup in `globals` and fails: nothing is printed, the sink
reports the runtime error `Undefined variable 'a'.` and sets
`hadRuntimeError`. -/
theorem C1_run_never_invokes_resolver :
    (match run 40 "{ var a = 1; print a; }" (NewInterpreter {}) with
     | some st =>
       st.ep.hadError == false && st.locals == [] && st.output == [] &&
       st.ep.hadRuntimeError == true &&
       st.ep.runtimeLog == ["Undefined variable 'a'.\n[line 1]"]
     | none => false) = true := by
  decide

set_option maxHeartbeats 1600000 in
/-- C2: the claim says that after a parse error is reported and
synchronized away, the outer declaration loop keeps parsing to the end
of input, so the statements after the erroneous one are still parsed.
In the code `Parser.Parse` returns `nil` as soon as `declaration`
returns an error.  On the tokens of `var; print 1;` the parse reports
the one error at `;` (`Expect variable name.`), synchronizes, and then
aborts: the result is the nil sentinel (`PRes.err`), no statement list
is produced, and the well-formed `print 1;` is never parsed (the log
holds exactly the first error). -/
theorem C2_parse_aborts_on_first_error :
    (match Parser.Parse 40 { tokens := (scanSource "var; print 1;" {}).1, ep := (scanSource "var; print 1;" {}).2 } with
     | (PRes.err, p) =>
       p.ep.hadError == true &&
       p.ep.log == ["[line 1] Error  at ';': Expect variable name."]
     | _ => false) = true := by
  decide

set_option maxHeartbeats 1600000 in
/-- C3: the claim says `print` renders an exact-integer number in
integer form and any other number as the shortest round-tripping
decimal, so `print 3.5;` outputs `3.5`.  The code's `stringify` runs
every number through `strconv.Itoa(int(v.(float64)))`, truncating
toward zero: `stringify` maps 3.5 (= 7/2) to `"3"`, and the whole
pipeline on `print 3.5;` outputs the line `3` with no runtime error. -/
theorem C3_stringify_truncates_nonintegral :
    ((stringify (NewInterpreter {}) (Value.vnum ⟨7, 2⟩) == "3") &&
     (match run 40 "print 3.5;" (NewInterpreter {}) with
      | some st => st.output == ["3"] && st.ep.hadRuntimeError == false
      | none => false)) = true := by
  decide

set_option maxHeartbeats 1600000 in
/-- C4: the claim says the comma-suppression latch stays in effect for
the whole argument list, across nested calls, so no argument following
a nested call is merged into a comma `Binary`.  In the code
`finishCall` clears the boolean latch unconditionally after the nested
call's closing paren, so in `f(g(1), 2);` the comma after `g(1)` is
taken by the comma operator: `f` gets exactly one argument, a `Binary`
whose operator is the comma and whose left side is the nested call. -/
theorem C4_comma_latch_cleared_by_nested_call :
    (match Parser.Parse 55 { tokens := (scanSource "f(g(1), 2);" {}).1, ep := (scanSource "f(g(1), 2);" {}).2 } with
     | (PRes.ok [Stmt.Expression (Expr.Call _ _ [Expr.Binary (Expr.Call _ _ _) op _])], p) =>
       op.type == TokenType.COMMA && p.ep.hadError == false
     | _ => false) = true := by
  decide

set_option maxHeartbeats 1600000 in
/-- C5: the claim says no program accepted by the parser can raise a
break signal outside the dynamic extent of a `while` loop, so the
signal is always caught by the nearest loop body, never surfaces to the
sink and never sets `hadRuntimeError`.  The parser's `loopDepth`
counter is not reset inside `functionBody`, so `break` inside a
function literal that is lexically inside a loop is accepted.  The
program `var f = nil; while (!f) f = fun() { break; }; f();` parses
with no error; calling `f()` after the loop raises the break signal at
top level, where `Interpret` hands it to `ErrorPrinter.RuntimeError`,
whose `err.(*runtimeError)` type assertion fails — a Go panic
(`panicked`), with `hadRuntimeError` left false. -/
theorem C5_break_escapes_to_top_level :
    (match Parser.Parse 45 { tokens := c5Tokens } with
     | (PRes.ok stmts, p) =>
       p.ep.hadError == false &&
       (Interpret 45 stmts (NewInterpreter p.ep)).ep ==
         { hadError := false, hadRuntimeError := false, log := [],
           runtimeLog := [], panicked := true }
     | _ => false) = true := by
  decide

/-- C6: for every call whose callee evaluates to a callable value and
whose evaluated argument count differs from the callee's arity, the
evaluator reports `Expected N arguments but got M.` at the
closing-paren token, and the resulting state is exactly the state after
evaluating callee and arguments: the callee is never invoked — no
parameter environment is allocated, no parameter bound, no body
effect happens. -/
theorem C6_arity_mismatch_reports_without_invoking
    (fuel : Nat) (callee : Expr) (paren : Token) (args : List Expr)
    (st st1 st2 : IState) (v : Value) (vs : List Value)
    (hc : evaluate fuel callee st = (Res.ok v, st1))
    (ha : evaluateArgs fuel args st1 = (Res.ok vs, st2))
    (hcall : isCallable v = true)
    (hm : vs.length ≠ arity v) :
    evaluate (fuel + 1) (Expr.Call callee paren args) st
      = (Res.sig (Signal.rerr paren ("Expected " ++ toString (arity v) ++
          " arguments but got " ++ toString vs.length ++ ".")), st2) := by
  simp only [evaluate] at hc ⊢
  simp only [evaluateArgs] at ha
  simp only [estep]
  rw [hc]
  simp only [rbind]
  rw [ha]
  simp only [rbind]
  rw [if_neg (not_not_intro hcall), if_pos hm]

/-- C6 witness: `clock(nil)` — the native `clock` has arity 0 and is
called with one argument; the call reports `Expected 0 arguments but
got 1.` at the `)` token and leaves the interpreter state untouched. -/
theorem C6_witness_clock_with_one_argument :
    evaluate 11 (Expr.Call (Expr.Variable { type := TokenType.IDENTIFIER, lexeme := "clock" } 0)
        c6Paren [Expr.Literal LitVal.vnil]) (NewInterpreter {})
      = (Res.sig (Signal.rerr c6Paren "Expected 0 arguments but got 1."),
          NewInterpreter {}) := by
  exact C6_arity_mismatch_reports_without_invoking 10
    (Expr.Variable { type := TokenType.IDENTIFIER, lexeme := "clock" } 0)
    c6Paren [Expr.Literal LitVal.vnil]
    (NewInterpreter {}) (NewInterpreter {}) (NewInterpreter {})
    Value.vclock [Value.vnil] rfl rfl rfl (by decide)

/-- C7: `!!x` evaluates to the boolean truthiness of `x` for every
runtime value `x` (`evalUnaryBang` is the evaluator's `BANG` branch),
exactly `nil` and `false` are falsey, the number `0` and the empty
string are truthy, and the evaluator maps the expression `!!lit` to
that boolean for every literal. -/
theorem C7_double_bang_is_truthiness :
    (∀ v : Value, evalUnaryBang (evalUnaryBang v) = Value.vbool (isTruthy v)) ∧
    (∀ v : Value, isTruthy v = false ↔ (v = Value.vnil ∨ v = Value.vbool false)) ∧
    isTruthy (Value.vnum ⟨0, 1⟩) = true ∧ isTruthy (Value.vstr "") = true ∧
    (∀ (fuel : Nat) (st : IState) (lv : LitVal),
      evaluate (fuel + 3)
        (Expr.Unary { type := TokenType.BANG, lexeme := "!" }
          (Expr.Unary { type := TokenType.BANG, lexeme := "!" } (Expr.Literal lv))) st
        = (Res.ok (Value.vbool (isTruthy (litToValue lv))), st)) := by
  refine ⟨?_, ?_, rfl, rfl, ?_⟩
  · intro v
    cases v <;> simp [evalUnaryBang, isTruthy]
  · intro v
    cases v with
    | vnil => simp [isTruthy]
    | vbool b => cases b <;> simp [isTruthy]
    | vnum q => simp [isTruthy]
    | vstr s => simp [isTruthy]
    | vfun f => simp [isTruthy]
    | vclock => simp [isTruthy]
    | vclass c => simp [isTruthy]
    | vinst i => simp [isTruthy]
  · intro fuel st lv
    cases lv with
    | vnil => rfl
    | vbool b => cases b <;> rfl
    | vnum q => rfl
    | vstr s => rfl

/-- C8: for every block execution, `executeBlock` returns with the
interpreter's current-environment pointer equal to its pre-entry value
— whether the body completed, errored, or raised a break/return signal
(the restore is on every exit path) — and the `globals` and `locals`
fields are unchanged (by the preservation induction over the whole
evaluator). -/
theorem C8_executeBlock_restores_environment (fuel : Nat) (stmts : List Stmt)
    (envId : Nat) (st : IState) :
    (executeBlock fuel stmts envId st).2.environment = st.environment ∧
    (executeBlock fuel stmts envId st).2.globals = st.globals ∧
    (executeBlock fuel stmts envId st).2.locals = st.locals := by
  refine ⟨?_, (estep_preserves_gl fuel (.blockStmts stmts envId) st).1,
    (estep_preserves_gl fuel (.blockStmts stmts envId) st).2⟩
  cases fuel with
  | zero => rfl
  | succ f => rfl

/-- C9: `LoxClass.Call` discards both results of the bound
initializer's call: whatever the initializer does — including raising a
runtime error in its body — instantiation never returns an error value
(`Res.sig`), and whenever it returns normally the value is the freshly
allocated instance.  (A Go panic or non-termination inside the
initializer still propagates; those are not `error` values.) -/
theorem C9_class_call_discards_initializer_failure :
    ∀ (fuel : Nat) (c : LoxClass) (args : List Value) (st : IState),
      (∀ sg : Signal, (LoxClass.Call fuel c args st).1 ≠ Res.sig sg) ∧
      (∀ v : Value, (LoxClass.Call fuel c args st).1 = Res.ok v →
        v = Value.vinst st.insts.length) := by
  intro fuel c args st
  cases fuel with
  | zero =>
    constructor
    · intro sg h
      simp only [LoxClass.Call, estep] at h
      exact Res.noConfusion h
    · intro v h
      simp only [LoxClass.Call, estep] at h
      exact Res.noConfusion h
  | succ f =>
    rcases h : c.findMethod "init" with _ | ini
    · constructor
      · intro sg hcontra
        simp only [LoxClass.Call, estep, h] at hcontra
        exact Res.noConfusion hcontra
      · intro v hv
        simp only [LoxClass.Call, estep, h] at hv
        exact (Res.ok.inj hv).symm
    · have hrw : LoxClass.Call (f + 1) c args st =
          rcatch (LoxFunction.Call f
              (ini.Bind { st with insts := st.insts ++ [⟨c, []⟩] } st.insts.length).1 args
              (ini.Bind { st with insts := st.insts ++ [⟨c, []⟩] } st.insts.length).2)
            (fun _ s2 => (.ok (.vinst st.insts.length), s2))
            (fun _ s2 => (.ok (.vinst st.insts.length), s2)) := by
        simp only [LoxClass.Call, LoxFunction.Call, estep, h]
      rw [hrw]
      rcases LoxFunction.Call f
          (ini.Bind { st with insts := st.insts ++ [⟨c, []⟩] } st.insts.length).1 args
          (ini.Bind { st with insts := st.insts ++ [⟨c, []⟩] } st.insts.length).2
        with ⟨r2, s2⟩
      constructor
      · intro sg hcontra
        cases r2 <;> simp only [rcatch] at hcontra <;> exact Res.noConfusion hcontra
      · intro v hv
        cases r2 <;> simp only [rcatch] at hv <;>
          first
          | exact (Res.ok.inj hv).symm
          | exact Res.noConfusion hv

set_option maxHeartbeats 1600000 in
/-- C9 witness: instantiating `class P { init() { 1 / 0; } }` — whose
initializer raises the runtime error `divisor can not be 0.` — returns
the fresh instance with a nil error, and `hadRuntimeError` stays
false. -/
theorem C9_witness_failing_initializer :
    (LoxClass.Call 30 c9BadClass [] (NewInterpreter {})).1 ≠ Res.sig Signal.brk ∧
    (LoxClass.Call 30 c9BadClass [] (NewInterpreter {})).1 = Res.ok (Value.vinst 0) ∧
    Value.vinst 0 = Value.vinst ((NewInterpreter {}).insts.length) ∧
    (LoxClass.Call 30 c9BadClass [] (NewInterpreter {})).2.ep.hadRuntimeError = false := by
  have h := C9_class_call_discards_initializer_failure 30 c9BadClass [] (NewInterpreter {})
  have hok : (LoxClass.Call 30 c9BadClass [] (NewInterpreter {})).1 = Res.ok (Value.vinst 0) := by
    rfl
  exact ⟨h.1 Signal.brk, hok, h.2 (Value.vinst 0) hok, by decide⟩

/-- C10: a `Variable` or `This` read with a hop entry in the `locals`
side-table can never produce an `Undefined variable` runtime error:
`lookUpVariable` goes through `Environment.GetAt`, which walks exactly
the stored number of `enclosing` links (`ancestor`) and returns the map
entry for the name at the destination scope, defaulting to Lox `nil`
when the name is absent there (a Go map read's zero value).  Only a
chain shorter than the hop count crashes (nil-dereference panic), which
is not an error value. -/
theorem C10_hopped_lookup_never_undefined
    (st : IState) (name : Token) (nid d : Nat)
    (hl : st.locals.lookup nid = some d) :
    (∀ (tok : Token) (msg : String),
        lookUpVariable st name nid ≠ Res.sig (Signal.rerr tok msg)) ∧
    (∀ dest : Nat, st.ancestor st.environment d = some dest →
        lookUpVariable st name nid
          = Res.ok ((assocGet (st.envAt dest).values name.lexeme).getD Value.vnil)) := by
  have hlu : lookUpVariable st name nid = st.GetAt st.environment d name.lexeme := by
    unfold lookUpVariable
    rw [hl]
  constructor
  · intro tok msg hcontra
    rw [hlu] at hcontra
    unfold IState.GetAt at hcontra
    rcases h2 : st.ancestor st.environment d with _ | dest <;> rw [h2] at hcontra <;>
      exact Res.noConfusion hcontra
  · intro dest h2
    rw [hlu]
    unfold IState.GetAt
    rw [h2]

/-- C10 witness: in `c10State` the node id 5 has hop distance 1; the
read of `x` walks one link from the inner scope to the globals cell,
finds no `x` there, and yields Lox `nil` — not an `Undefined variable`
error. -/
theorem C10_witness_hopped_read_yields_nil :
    (lookUpVariable c10State { type := TokenType.IDENTIFIER, lexeme := "x" } 5
      ≠ Res.sig (Signal.rerr { type := TokenType.IDENTIFIER, lexeme := "x" }
          "Undefined variable 'x'.")) ∧
    lookUpVariable c10State { type := TokenType.IDENTIFIER, lexeme := "x" } 5
      = Res.ok Value.vnil := by
  have h := C10_hopped_lookup_never_undefined c10State
    { type := TokenType.IDENTIFIER, lexeme := "x" } 5 1 rfl
  exact ⟨h.1 _ _, h.2 0 rfl⟩

end Glox
